import Mathlib

/-!
# salesforceCircuit: the poll / parse / deduplicate / notify loop of `prototype.go`

A shallow embedding of `prototype.go`.

* `JValue` is the dynamic value `encoding/json` stores in an `interface{}`.
* `Outcome` is how a Go call ends: it returns, the process exits through
  `log.Fatal`, or a failed single-valued type assertion panics.
* `parseLeads`, `send`, `Lead.String`, `configureHandler` and one iteration of
  the `for` loop of `poll` (`pollTick`) follow the source statement by statement.
* The HTTP peers and the Go library belong to the environment: the decoder
  `json.Unmarshal` is a parameter `um`, the verdict of `http.NewRequest` is a
  parameter `nr`, and what every request meets is an input of the tick.
* `RefJSON.unmarshal` and `RefHTTP.newRequest` are reference models of the two
  library calls, used to run the program as committed on concrete texts.
-/

namespace SalesforceCircuit

/-! ## Constants -/

def API_URL : String := "https://<CIRCUIT_BACKEND_SERVER_IP>:<PORT>/v2/"

def ECHO_SERVICE : String := "http://echo-webhook.herokuapp.com/lead"

def CONVS_URL : String := API_URL ++ "conversations"

/-! ## Dynamic JSON values and call outcomes -/

/-- Value that `json.Unmarshal` stores in an `interface{}`: `nil`, `bool`,
`float64` (the program never inspects it; the literal it was read from stands
for it), `string`, `[]interface{}` and `map[string]interface{}`.  A Go map holds each key
once; the members of `obj` are listed in some iteration order. -/
inductive JValue where
  | null : JValue
  | bool (b : Bool) : JValue
  | num (lit : String) : JValue
  | str (s : String) : JValue
  | arr (elems : List JValue) : JValue
  | obj (members : List (String × JValue)) : JValue

/-- How a call ends: `ret` returns a value, `fatal` is `log.Fatal`/`log.Fatalln`
(the message is logged and the process exits), `panic` is a run-time panic of a
single-valued type assertion `x.(T)` whose operand is not a `T`. -/
inductive Outcome (α : Type) where
  | ret (a : α) : Outcome α
  | fatal (msg : String) : Outcome α
  | panic : Outcome α
  deriving DecidableEq

/-- Whether the call returned to its caller. -/
def Outcome.returned {α : Type} : Outcome α → Bool
  | .ret _ => true
  | _ => false

/-- The records a call handed back to its caller: none when it did not return. -/
def Outcome.records {α : Type} : Outcome (List α) → List α
  | .ret l => l
  | _ => []

/-! ## Lead model -/

/-- The `Lead` struct. -/
structure Lead where
  Id : String
  Description : String
  URL : String
  Created : String
  Company : String
  deriving DecidableEq

/-- The zero value `&Lead{}`. -/
def Lead.zero : Lead := ⟨"", "", "", "", ""⟩

/-- `func (l Lead) String() string`: `fmt.Sprintf` with three `%v` verbs, each
printing a string operand verbatim. -/
def Lead.String (l : Lead) : String :=
  "<b>Company</b>: " ++ l.Company ++ "<br><b>CreatedAt</b>: " ++ l.Created ++
    "<br><br><b>Description</b>: " ++ l.Description

/-! ## parseLeads -/

/-- Loop `for ka, kv := range attrs` of `parseLeads`: `lead.URL = kv.(string)`
for the key `url`. -/
def parseAttrs : List (String × JValue) → Lead → Outcome Lead
  | [], lead => .ret lead
  | (ka, kv) :: rest, lead =>
    if ka = "url" then
      match kv with
      | .str s => parseAttrs rest { lead with URL := s }
      | _ => .panic
    else parseAttrs rest lead

/-- Body of `switch key` for one member of a record object. -/
def parseField (key : String) (val : JValue) (lead : Lead) : Outcome Lead :=
  if key = "Id" then
    match val with
    | .str s => .ret { lead with Id := s }
    | _ => .panic
  else if key = "Description" then
    match val with
    | .str s => .ret { lead with Description := s }
    | _ => .panic
  else if key = "attributes" then
    match val with
    | .obj attrs => parseAttrs attrs lead
    | _ => .panic
  else if key = "Company" then
    match val with
    | .str s => .ret { lead with Company := s }
    | _ => .panic
  else if key = "CreatedDate" then
    match val with
    | .str s => .ret { lead with Created := s }
    | _ => .panic
  else .ret lead

/-- Loop `for key, val := range lm` of `parseLeads`. -/
def parseFields : List (String × JValue) → Lead → Outcome Lead
  | [], lead => .ret lead
  | (key, val) :: rest, lead =>
    match parseField key val lead with
    | .ret lead1 => parseFields rest lead1
    | .fatal msg => .fatal msg
    | .panic => .panic

/-- Loop `for _, u := range vv` of `parseLeads`: `lm := u.(map[string]interface{})`,
a fresh `&Lead{}` filled from `lm`, appended to `leads`. -/
def parseNew : List JValue → List Lead → Outcome (List Lead)
  | [], leads => .ret leads
  | u :: rest, leads =>
    match u with
    | .obj lm =>
      match parseFields lm Lead.zero with
      | .ret lead => parseNew rest (leads ++ [lead])
      | .fatal msg => .fatal msg
      | .panic => .panic
    | _ => .panic

/-- Loop `for k, v := range m` of `parseLeads`: the two-valued assertion
`v.([]interface{})` never panics; only an array under the key `new` is read. -/
def parseTop : List (String × JValue) → List Lead → Outcome (List Lead)
  | [], leads => .ret leads
  | (k, v) :: rest, leads =>
    match v with
    | .arr vv =>
      if k = "new" then
        match parseNew vv leads with
        | .ret leads1 => parseTop rest leads1
        | .fatal msg => .fatal msg
        | .panic => .panic
      else parseTop rest leads
    | _ => parseTop rest leads

/-- `func parseLeads (reply string) []Lead`.  `um` is `json.Unmarshal` into an
`interface{}`: `.error e` is a non-nil `err` with text `e`, on which the function
calls `log.Fatalln`; `m := f.(map[string]interface{})` panics unless the decoded
value is an object. -/
def parseLeads (um : String → Except String JValue) (reply : String) : Outcome (List Lead) :=
  match um reply with
  | .error e => .fatal ("Error parsing: " ++ e)
  | .ok f =>
    match f with
    | .obj m => parseTop m []
    | _ => .panic

/-! ## send -/

/-- What a request meets on the network: `client.Do` fails (`transportError`),
the reply body cannot be read (`readError`), or a reply arrives with some body,
whatever its status code (`body`). -/
inductive Response where
  | transportError (err : String) : Response
  | readError (err : String) : Response
  | body (text : String) : Response
  deriving DecidableEq

/-- The request handed to `client.Do`: method, URL, whether the `Authorization`
header was added, and the buffer sent as body. -/
structure Request where
  method : String
  url : String
  useAuth : Bool
  body : String
  deriving DecidableEq

/-- `func send(method, url, client, useAuth, content) string`: the request it
hands to `client.Do`, when it gets that far, and how the call ends.
`nr method url` is whether `http.NewRequest(method, url, &buf)` returns a
request: its error is discarded (`req, _ :=`), so when it returns `nil` the call
`req.Header.Add` panics on the nil pointer before `client.Do` and no request is
issued.  The buffer holds `content` only for a `POST`; an error of `client.Do`
goes to `log.Fatal`; a body that cannot be read makes it return the empty
string. -/
def send (nr : String → String → Bool) (method url : String) (useAuth : Bool)
    (content : String) (resp : Response) : Option Request × Outcome String :=
  if nr method url = true then
    (some ⟨method, url, useAuth, if method = "POST" then content else ""⟩,
      match resp with
      | .transportError err => .fatal ("Cannot send" ++ err)
      | .readError _ => .ret ""
      | .body text => .ret text)
  else (none, .panic)

/-! ## Process state -/

/-- Whether the process is alive: `log.Fatal` exits it, a panic crashes it. -/
inductive Status where
  | running : Status
  | exited (msg : String) : Status
  | panicked : Status
  deriving DecidableEq

/-- A request `send` handed to `client.Do` for `poll`: the upstream fetch, or
the notify dispatch built for a lead. -/
inductive Call where
  | fetch (req : Request) : Call
  | notify (lead : Lead) (req : Request) : Call
  deriving DecidableEq

/-- The globals `convId` and `LEADMAP`, the requests issued so far, and the
process status. -/
structure State where
  convId : String
  LEADMAP : List (String × Lead)
  calls : List Call
  status : Status
  deriving DecidableEq

/-- State when `main` starts: `convId = ""`, `LEADMAP = make(map[string]Lead)`. -/
def State.init : State := ⟨"", [], [], .running⟩

/-- Map read `LEADMAP[k]` with the comma-ok form. -/
def mapGet (m : List (String × Lead)) (k : String) : Option Lead :=
  (m.find? (fun e => e.1 = k)).map Prod.snd

/-- Map write `LEADMAP[k] = v`. -/
def mapSet (m : List (String × Lead)) (k : String) (v : Lead) : List (String × Lead) :=
  (k, v) :: m.filter (fun e => e.1 ≠ k)

/-! ## configureHandler and poll -/

/-- `configureHandler`: a `GET` serves the page; any other request stores the
form value `convId`. -/
def configureHandler (method formConvId : String) (st : State) : State :=
  if method = "GET" then st else { st with convId := formConvId }

/-- The byte string `poll` posts for a lead. -/
def notifyContent (lead : Lead) : String :=
  "\x7b\"content\":\"" ++ lead.String ++ "\", \"subject\": \"New Lead!!!\"\x7d"

/-- The URL `poll` posts to. -/
def notifyURL (convId : String) : String :=
  CONVS_URL ++ "/" ++ convId ++ "/messages"

/-- Body of `for _, lead := range leads` in `poll`; `post` is what the POST
meets, when one is made. -/
def pollLead (nr : String → String → Bool) (post : Response) (lead : Lead) (st : State) :
    State :=
  match mapGet st.LEADMAP lead.Id with
  | some _ => st
  | none =>
    let r := send nr "POST" (notifyURL st.convId) true (notifyContent lead) post
    let st1 := { st with calls := st.calls ++ (r.1.map (Call.notify lead)).toList }
    match r.2 with
    | .ret _ => { st1 with LEADMAP := mapSet st1.LEADMAP lead.Id lead }
    | .fatal msg => { st1 with status := .exited msg }
    | .panic => { st1 with status := .panicked }

/-- Loop `for _, lead := range leads` in `poll`; `posts i` is what the POST for
the `i`-th lead of the slice meets.  The loop ends when the process does. -/
def pollLeads (nr : String → String → Bool) (posts : Nat → Response) :
    Nat → List Lead → State → State
  | _, [], st => st
  | i, lead :: rest, st =>
    let st1 := pollLead nr (posts i) lead st
    match st1.status with
    | .running => pollLeads nr posts (i + 1) rest st1
    | _ => st1

/-- What the network does during one iteration of `poll`. -/
structure TickInput where
  fetch : Response
  posts : Nat → Response

/-- One iteration of the `for` loop of `poll` (the sleep left out). -/
def pollTick (um : String → Except String JValue) (nr : String → String → Bool)
    (inp : TickInput) (st : State) : State :=
  if st.convId = "" then st
  else
    let r := send nr "GET" ECHO_SERVICE false "" inp.fetch
    let st1 := { st with calls := st.calls ++ (r.1.map Call.fetch).toList }
    match r.2 with
    | .ret reply =>
      match parseLeads um reply with
      | .ret leads => pollLeads nr inp.posts 0 leads st1
      | .fatal msg => { st1 with status := .exited msg }
      | .panic => { st1 with status := .panicked }
    | .fatal msg => { st1 with status := .exited msg }
    | .panic => { st1 with status := .panicked }

/-- What happens to the process: a request to `/configure`, or one iteration of
`poll`. -/
inductive Event where
  | configure (method formConvId : String) : Event
  | tick (inp : TickInput) : Event

/-- One event; a process that has exited or crashed does nothing more. -/
def step (um : String → Except String JValue) (nr : String → String → Bool) (st : State)
    (ev : Event) : State :=
  match st.status with
  | .running =>
    match ev with
    | .configure method formConvId => configureHandler method formConvId st
    | .tick inp => pollTick um nr inp st
  | _ => st

/-- A run of the process. -/
def run (um : String → Except String JValue) (nr : String → String → Bool) (st : State)
    (evs : List Event) : State :=
  evs.foldl (step um nr) st

/-- Whether a call is the notify dispatch for the lead id `id`. -/
def Call.isNotifyFor (id : String) : Call → Bool
  | .notify lead _ => lead.Id = id
  | .fetch _ => false

/-- Whether a call is a notify dispatch. -/
def Call.isNotify : Call → Bool
  | .notify _ _ => true
  | .fetch _ => false

/-- Number of notify dispatches made for the lead id `id`. -/
def notifyCount (id : String) (calls : List Call) : Nat :=
  (calls.filter (Call.isNotifyFor id)).length

/-! ## The field table of the reply, as the specification words it -/

/-- Whether a value is a string. -/
def isStr : JValue → Bool
  | .str _ => true
  | _ => false

/-- The value an object holds under the key `k`, when it holds one. -/
def memberAt (m : List (String × JValue)) (k : String) : Option JValue :=
  (m.find? (fun e => e.1 = k)).map Prod.snd

/-- Each key occurs once, as in every Go map. -/
def keysDistinct (m : List (String × JValue)) : Bool :=
  decide (m.map Prod.fst).Nodup

/-- The member `k` is absent or a string. -/
def strOrAbsent (m : List (String × JValue)) (k : String) : Bool :=
  match memberAt m k with
  | none => true
  | some v => isStr v

/-- An `attributes` value per the field table: an object whose `url`, when
present, is a string. -/
def shapedAttributes : JValue → Bool
  | .obj attrs => keysDistinct attrs && strOrAbsent attrs "url"
  | _ => false

/-- A record per the field table: an object in which `Id`, `Description`,
`Company` and `CreatedDate`, when present, are strings and `attributes`, when
present, is shaped. -/
def shapedRecord : JValue → Bool
  | .obj lm =>
    keysDistinct lm && strOrAbsent lm "Id" && strOrAbsent lm "Description" &&
      strOrAbsent lm "Company" && strOrAbsent lm "CreatedDate" &&
      (match memberAt lm "attributes" with
        | none => true
        | some a => shapedAttributes a)
  | _ => false

/-- A payload per the field table: the value under `new`, when present, is an
array of shaped records. -/
def shapedPayload (top : List (String × JValue)) : Bool :=
  keysDistinct top &&
    (match memberAt top "new" with
      | none => true
      | some (.arr es) => es.all shapedRecord
      | some _ => false)

/-- The string under `k`, or `dflt` when `k` is absent or not a string. -/
def strAt (m : List (String × JValue)) (k : String) (dflt : String) : String :=
  match memberAt m k with
  | some (.str s) => s
  | _ => dflt

/-- The string `attributes.url` of a record, or `dflt`. -/
def urlAt (lm : List (String × JValue)) (dflt : String) : String :=
  match memberAt lm "attributes" with
  | some (.obj attrs) => strAt attrs "url" dflt
  | _ => dflt

/-- The Lead the field table assigns to a record: each field the string of the
mapped member, the empty string when the member is absent. -/
def specLead : JValue → Lead
  | .obj lm =>
    { Id := strAt lm "Id" "", Description := strAt lm "Description" "",
      URL := urlAt lm "", Created := strAt lm "CreatedDate" "",
      Company := strAt lm "Company" "" }
  | _ => Lead.zero

/-- The Leads the field table assigns to a payload: one per element of the `new`
array, in order; none when `new` is absent. -/
def specLeads (top : List (String × JValue)) : List Lead :=
  match memberAt top "new" with
  | some (.arr es) => es.map specLead
  | _ => []

/-! ## The type assertions of parseLeads, member by member -/

/-- The assertion made on one member of `attributes` holds. -/
def attrOK (e : String × JValue) : Bool :=
  if e.1 = "url" then isStr e.2 else true

/-- The assertions made on one member of a record hold. -/
def fieldOK (e : String × JValue) : Bool :=
  if e.1 = "Id" then isStr e.2
  else if e.1 = "Description" then isStr e.2
  else if e.1 = "attributes" then
    (match e.2 with
      | .obj attrs => attrs.all attrOK
      | _ => false)
  else if e.1 = "Company" then isStr e.2
  else if e.1 = "CreatedDate" then isStr e.2
  else true

/-- The assertions made on one element of the `new` array hold. -/
def recordOK : JValue → Bool
  | .obj lm => lm.all fieldOK
  | _ => false

/-- The assertions made while reading one top-level member hold. -/
def topOK (e : String × JValue) : Bool :=
  match e.2 with
  | .arr vv => if e.1 = "new" then vv.all recordOK else true
  | _ => true

/-- Every single-valued type assertion `parseLeads` makes on the object holds. -/
def typedPayload (top : List (String × JValue)) : Bool :=
  top.all topOK

/-- The fields a record with distinct keys gives to a Lead that starts as `lead`. -/
def leadWith (lm : List (String × JValue)) (lead : Lead) : Lead :=
  { Id := strAt lm "Id" lead.Id, Description := strAt lm "Description" lead.Description,
    URL := urlAt lm lead.URL, Created := strAt lm "CreatedDate" lead.Created,
    Company := strAt lm "Company" lead.Company }

/-- Whether a decoding result is a JSON object. -/
def isMapping : Except String JValue → Bool
  | .ok (.obj _) => true
  | _ => false

/-! ## A reference JSON decoder

The theorems on `parseLeads` and `poll` hold for every decoder `um`.  To run the
program on concrete payload texts, `RefJSON.unmarshal` decodes the JSON grammar
of RFC 8259 into a `JValue` the way `json.Unmarshal` fills an `interface{}`: a
later member replaces an earlier one with the same key, an unpaired surrogate
escape becomes U+FFFD, and a number that does not fit a `float64` is an error
(reported after the whole text was read, with Go's message).  The texts of its
syntax errors are not Go's, and the nesting limit of Go's decoder is left out.
`RefJSON.read` is the grammar alone.
Characters are tested by code point: 34 is the double quote, 92 the backslash,
123 and 125 the braces, 91 and 93 the brackets, 44 the comma, 58 the colon.
-/

namespace RefJSON

/-- JSON white space: space, tab, line feed, carriage return. -/
def isWs (c : Char) : Bool :=
  c.toNat = 32 || c.toNat = 9 || c.toNat = 10 || c.toNat = 13

/-- Drop leading white space. -/
def skipWs : List Char → List Char
  | [] => []
  | c :: cs => if isWs c then skipWs cs else c :: cs

/-- Value of a hexadecimal digit. -/
def hexVal (c : Char) : Option Nat :=
  if 48 ≤ c.toNat ∧ c.toNat ≤ 57 then some (c.toNat - 48)
  else if 97 ≤ c.toNat ∧ c.toNat ≤ 102 then some (c.toNat - 87)
  else if 65 ≤ c.toNat ∧ c.toNat ≤ 70 then some (c.toNat - 55)
  else none

/-- Value of four hexadecimal digits. -/
def hex4 (a b c d : Char) : Option Nat :=
  match hexVal a, hexVal b, hexVal c, hexVal d with
  | some w, some x, some y, some z => some (((w * 16 + x) * 16 + y) * 16 + z)
  | _, _, _, _ => none

/-- The character a one-letter escape stands for. -/
def escapeChar (c : Char) : Option Char :=
  if c.toNat = 34 then some c
  else if c.toNat = 92 then some c
  else if c.toNat = 47 then some c
  else if c.toNat = 98 then some (Char.ofNat 8)
  else if c.toNat = 102 then some (Char.ofNat 12)
  else if c.toNat = 110 then some (Char.ofNat 10)
  else if c.toNat = 114 then some (Char.ofNat 13)
  else if c.toNat = 116 then some (Char.ofNat 9)
  else none

/-- The character of a `\u` escape whose value is `v`, and the input left, given
the input `rest` after its four digits: a high surrogate followed by a low one
is combined, any other surrogate becomes U+FFFD. -/
def unicodeEscape (v : Nat) (rest : List Char) : Char × List Char :=
  if 55296 ≤ v ∧ v < 56320 then
    match rest with
    | b :: u :: g1 :: g2 :: g3 :: g4 :: rest2 =>
      if b.toNat = 92 ∧ u.toNat = 117 then
        match hex4 g1 g2 g3 g4 with
        | some w =>
          if 56320 ≤ w ∧ w < 57344 then
            (Char.ofNat (65536 + (v - 55296) * 1024 + (w - 56320)), rest2)
          else (Char.ofNat 65533, rest)
        | none => (Char.ofNat 65533, rest)
      else (Char.ofNat 65533, rest)
    | _ => (Char.ofNat 65533, rest)
  else if 56320 ≤ v ∧ v < 57344 then (Char.ofNat 65533, rest)
  else (Char.ofNat v, rest)

/-- Read a string literal after its opening quote; `acc` holds the characters
read so far, last first. -/
def readString : Nat → List Char → List Char → Option (String × List Char)
  | 0, _, _ => none
  | _, [], _ => none
  | n + 1, c :: cs, acc =>
    if c.toNat = 34 then some (String.mk acc.reverse, cs)
    else if c.toNat = 92 then
      match cs with
      | [] => none
      | e :: rest =>
        if e.toNat = 117 then
          match rest with
          | h1 :: h2 :: h3 :: h4 :: rest1 =>
            match hex4 h1 h2 h3 h4 with
            | some v => readString n (unicodeEscape v rest1).2 ((unicodeEscape v rest1).1 :: acc)
            | none => none
          | _ => none
        else
          match escapeChar e with
          | some x => readString n rest (x :: acc)
          | none => none
    else if c.toNat < 32 then none
    else readString n cs (c :: acc)

/-- Whether a character is a decimal digit. -/
def isDigit (c : Char) : Bool :=
  decide (48 ≤ c.toNat) && decide (c.toNat ≤ 57)

/-- Split off the leading decimal digits. -/
def takeDigits : List Char → List Char × List Char
  | [] => ([], [])
  | c :: cs => if isDigit c then (c :: (takeDigits cs).1, (takeDigits cs).2) else ([], c :: cs)

/-- Integer part of a number: `0`, or digits that do not start with `0`. -/
def readInt (cs : List Char) : Option (List Char × List Char) :=
  match takeDigits cs with
  | ([], _) => none
  | (d :: ds, rest) => if d.toNat = 48 ∧ ds ≠ [] then none else some (d :: ds, rest)

/-- Optional fraction of a number. -/
def readFrac (cs : List Char) : Option (List Char × List Char) :=
  match cs with
  | [] => some ([], [])
  | c :: rest =>
    if c.toNat = 46 then
      match takeDigits rest with
      | ([], _) => none
      | (ds, rest1) => some (c :: ds, rest1)
    else some ([], c :: rest)

/-- Digits of an exponent, after the characters `pre`. -/
def readExpDigits (pre : List Char) (cs : List Char) : Option (List Char × List Char) :=
  match takeDigits cs with
  | ([], _) => none
  | (ds, rest) => some (pre ++ ds, rest)

/-- Optional exponent of a number. -/
def readExp (cs : List Char) : Option (List Char × List Char) :=
  match cs with
  | [] => some ([], [])
  | e :: rest =>
    if e.toNat = 101 ∨ e.toNat = 69 then
      match rest with
      | [] => none
      | sg :: rest1 =>
        if sg.toNat = 43 ∨ sg.toNat = 45 then readExpDigits [e, sg] rest1
        else readExpDigits [e] rest
    else some ([], e :: rest)

/-- Value of a string of decimal digits. -/
def digitsToNat (ds : List Char) : Nat :=
  ds.foldl (fun n d => n * 10 + (d.toNat - 48)) 0

/-- Value of an exponent part (`e`, an optional sign, digits); zero when absent. -/
def expToInt (e : List Char) : Int :=
  match e with
  | [] => 0
  | _ :: sg :: ds =>
    if sg.toNat = 45 then - (digitsToNat ds : Int)
    else if sg.toNat = 43 then (digitsToNat ds : Int)
    else (digitsToNat (sg :: ds) : Int)
  | [_] => 0

/-- Power of ten. -/
def pow10 : Nat → Nat
  | 0 => 1
  | n + 1 => 10 * pow10 n

/-- The number `2 ^ 1024 - 2 ^ 970`: half a unit in the last place above the
largest `float64`; a decimal at or above it rounds to infinity. -/
def floatLimit : Nat :=
  179769313486231580793728971405303415079934132710037826936173778980444968292764750946649017977587207096330286416692887910946555547851940402630657488671505820681908902000708383676273854845817711531764475730270069855571366959622842914819860834936475292719074168444365510704342711559699508093042880177904174497792

/-- Whether `strconv.ParseFloat(lit, 64)` reports a range error for the number
`mant * 10 ^ k`: it is at least `floatLimit`.  Two tests shorten the
computation: `10 ^ 310` is above the limit, and a number below the limit stays
below it when divided by a power of ten (`outOfRange_iff` states the test
without them). -/
def outOfRange (mant : Nat) (k : Int) : Bool :=
  if mant = 0 then false
  else if 310 ≤ k then true
  else if 0 ≤ k then decide (floatLimit ≤ mant * pow10 k.toNat)
  else if mant < floatLimit then false
  else decide (floatLimit * pow10 (-k).toNat ≤ mant)

/-- Read a number literal: the literal, whether it is out of the range of
`float64`, and the input left. -/
def readNumber (cs : List Char) : Option (String × Bool × List Char) :=
  let signed : List Char × List Char :=
    match cs with
    | [] => ([], [])
    | c :: rest => if c.toNat = 45 then ([c], rest) else ([], c :: rest)
  match readInt signed.2 with
  | none => none
  | some (i, cs2) =>
    match readFrac cs2 with
    | none => none
    | some (f, cs3) =>
      match readExp cs3 with
      | none => none
      | some (e, cs4) =>
        some (String.mk (signed.1 ++ i ++ f ++ e),
          outOfRange (digitsToNat (i ++ f.drop 1)) (expToInt e - ((f.drop 1).length : Int)),
          cs4)

/-- Consume the characters `want` from the input. -/
def expectChars : List Char → List Char → Option (List Char)
  | [], cs => some cs
  | _ :: _, [] => none
  | w :: ws, c :: cs => if w = c then expectChars ws cs else none

/-- Add a member to an object under construction: it replaces a member with the
same key. -/
def putMember (acc : List (String × JValue)) (k : String) (v : JValue) :
    List (String × JValue) :=
  acc.filter (fun e => e.1 ≠ k) ++ [(k, v)]

mutual
/-- Read one JSON value; `err` is the literal of the first number met so far that
is out of range. -/
def readValue : Nat → List Char → Option String → Option (JValue × List Char × Option String)
  | 0, _, _ => none
  | n + 1, cs, err =>
    match skipWs cs with
    | [] => none
    | c :: rest =>
      if c.toNat = 123 then
        match skipWs rest with
        | [] => none
        | d :: rest1 =>
          if d.toNat = 125 then some (.obj [], rest1, err) else readMembers n (d :: rest1) [] err
      else if c.toNat = 91 then
        match skipWs rest with
        | [] => none
        | d :: rest1 =>
          if d.toNat = 93 then some (.arr [], rest1, err) else readElems n (d :: rest1) [] err
      else if c.toNat = 34 then
        match readString (rest.length + 1) rest [] with
        | some (s, rest1) => some (.str s, rest1, err)
        | none => none
      else if c.toNat = 116 then
        (expectChars "rue".toList rest).map (fun r => (.bool true, r, err))
      else if c.toNat = 102 then
        (expectChars "alse".toList rest).map (fun r => (.bool false, r, err))
      else if c.toNat = 110 then
        (expectChars "ull".toList rest).map (fun r => (.null, r, err))
      else
        match readNumber (c :: rest) with
        | some (lit, over, rest1) =>
          some (.num lit, rest1, if err.isNone && over then some lit else err)
        | none => none
/-- Read the elements of an array up to its closing bracket. -/
def readElems : Nat → List Char → List JValue → Option String →
    Option (JValue × List Char × Option String)
  | 0, _, _, _ => none
  | n + 1, cs, acc, err =>
    match readValue n cs err with
    | none => none
    | some (v, rest, err1) =>
      match skipWs rest with
      | [] => none
      | d :: rest1 =>
        if d.toNat = 44 then readElems n rest1 (acc ++ [v]) err1
        else if d.toNat = 93 then some (.arr (acc ++ [v]), rest1, err1)
        else none
/-- Read the members of an object up to its closing brace. -/
def readMembers : Nat → List Char → List (String × JValue) → Option String →
    Option (JValue × List Char × Option String)
  | 0, _, _, _ => none
  | n + 1, cs, acc, err =>
    match skipWs cs with
    | [] => none
    | q :: rest =>
      if q.toNat = 34 then
        match readString (rest.length + 1) rest [] with
        | none => none
        | some (k, rest1) =>
          match skipWs rest1 with
          | [] => none
          | colon :: rest2 =>
            if colon.toNat = 58 then
              match readValue n rest2 err with
              | none => none
              | some (v, rest3, err1) =>
                match skipWs rest3 with
                | [] => none
                | d :: rest4 =>
                  if d.toNat = 44 then readMembers n rest4 (putMember acc k v) err1
                  else if d.toNat = 125 then some (.obj (putMember acc k v), rest4, err1)
                  else none
            else none
      else none
end

/-- Read a whole text by the grammar alone: one value, then only white space;
with it the literal of the first number out of range, when there is one. -/
def readText (s : String) : Except String (JValue × Option String) :=
  match readValue (s.length + 1) s.toList none with
  | none => .error "invalid JSON text"
  | some (v, rest, err) =>
    match skipWs rest with
    | [] => .ok (v, err)
    | _ => .error "invalid character after top-level value"

/-- The value a text denotes by the grammar of RFC 8259, when it is a JSON text. -/
def read (s : String) : Option JValue :=
  match readText s with
  | .ok (v, _) => some v
  | .error _ => none

/-- Decode a whole text as `json.Unmarshal` does into an `interface{}`. -/
def unmarshal (s : String) : Except String JValue :=
  match readText s with
  | .error e => .error e
  | .ok (v, none) => .ok v
  | .ok (_, some lit) =>
    .error ("json: cannot unmarshal number " ++ lit ++ " into Go value of type float64")

end RefJSON

/-! ## A reference model of http.NewRequest

`http.NewRequest(method, url, body)` returns a request unless the method is not
a token or `url.Parse` rejects the URL.  `RefURL.parses` follows `url.Parse` of
`net/url` check by check (control characters, scheme, authority with user
information, host and port, percent escapes of host, path and fragment; the
query is not checked); only the verdict is modelled, so the order of the checks
is free.  An IP literal in brackets is checked for its port, escapes and zone
only, not for being an address.  Characters are tested by code point: 35 is `#`, 37 `%`, 47 `/`,
58 `:`, 63 `?`, 64 `@`, 91 and 93 the brackets.
-/

namespace RefURL

/-- The input before the first character with code `sep`. -/
def cutBefore (sep : Nat) : List Char → List Char
  | [] => []
  | c :: cs => if c.toNat = sep then [] else c :: cutBefore sep cs

/-- The input after the first character with code `sep`; empty when there is none. -/
def cutAfter (sep : Nat) : List Char → List Char
  | [] => []
  | c :: cs => if c.toNat = sep then cs else cutAfter sep cs

/-- The input from the first character with code `sep` on; empty when there is none. -/
def cutFrom (sep : Nat) : List Char → List Char
  | [] => []
  | c :: cs => if c.toNat = sep then c :: cs else cutFrom sep cs

/-- Whether a character with code `sep` occurs. -/
def hasChar (sep : Nat) : List Char → Bool
  | [] => false
  | c :: cs => c.toNat = sep || hasChar sep cs

/-- The input after the last character with code `sep`, when one occurs. -/
def afterLast (sep : Nat) : List Char → Option (List Char) → Option (List Char)
  | [], acc => acc
  | c :: cs, acc => if c.toNat = sep then afterLast sep cs (some cs) else afterLast sep cs acc

/-- `stringContainsCTLByte`: a byte below the space, or 0x7f. -/
def hasCTL : List Char → Bool
  | [] => false
  | c :: cs => c.toNat < 32 || c.toNat = 127 || hasCTL cs

/-- ASCII letter. -/
def isAlpha (c : Char) : Bool :=
  (decide (97 ≤ c.toNat) && decide (c.toNat ≤ 122)) ||
    (decide (65 ≤ c.toNat) && decide (c.toNat ≤ 90))

/-- ASCII digit. -/
def isDigit (c : Char) : Bool :=
  decide (48 ≤ c.toNat) && decide (c.toNat ≤ 57)

/-- `ishex`. -/
def isHex (c : Char) : Bool :=
  isDigit c || (decide (97 ≤ c.toNat) && decide (c.toNat ≤ 102)) ||
    (decide (65 ≤ c.toNat) && decide (c.toNat ≤ 70))

/-- `unhex`. -/
def unhex (c : Char) : Nat :=
  if isDigit c then c.toNat - 48
  else if decide (97 ≤ c.toNat) && decide (c.toNat ≤ 102) then c.toNat - 87
  else c.toNat - 55

/-- `getScheme`: `none` is the error `missing protocol scheme`; otherwise whether
a scheme was found, and the input after it.  `first` tells the first character,
`whole` is the whole input. -/
def getScheme : Bool → List Char → List Char → Option (Bool × List Char)
  | _, [], whole => some (false, whole)
  | first, c :: cs, whole =>
    if isAlpha c then getScheme false cs whole
    else if isDigit c || c.toNat = 43 || c.toNat = 45 || c.toNat = 46 then
      if first then some (false, whole) else getScheme false cs whole
    else if c.toNat = 58 then
      if first then none else some (true, cs)
    else some (false, whole)

/-- `unescape` in the modes of path, fragment and user information: every `%` is
followed by two hexadecimal digits. -/
def escapesOK : List Char → Bool
  | [] => true
  | c :: cs =>
    if c.toNat = 37 then
      match cs with
      | a :: b :: rest => isHex a && isHex b && escapesOK rest
      | _ => false
    else escapesOK cs

/-- `shouldEscape(c, encodeHost)` for the byte `n`. -/
def shouldEscapeHost (n : Nat) : Bool :=
  !((decide (97 ≤ n) && decide (n ≤ 122)) || (decide (65 ≤ n) && decide (n ≤ 90)) ||
    (decide (48 ≤ n) && decide (n ≤ 57)) ||
    [33, 36, 38, 39, 40, 41, 42, 43, 44, 59, 61, 58, 91, 93, 60, 62, 34, 45, 95, 46,
      126].contains n)

/-- `unescape(s, encodeHost)`: a `%XX` escape stands for a non-ASCII byte or is
`%25`, and no ASCII character is one that needs escaping. -/
def hostOK : List Char → Bool
  | [] => true
  | c :: cs =>
    if c.toNat = 37 then
      match cs with
      | a :: b :: rest =>
        isHex a && isHex b &&
          (decide (8 ≤ unhex a) || (decide (a.toNat = 50) && decide (b.toNat = 53))) &&
          hostOK rest
      | _ => false
    else if decide (c.toNat < 128) && shouldEscapeHost c.toNat then false
    else hostOK cs

/-- `unescape(s, encodeZone)`. -/
def zoneOK : List Char → Bool
  | [] => true
  | c :: cs =>
    if c.toNat = 37 then
      match cs with
      | a :: b :: rest =>
        isHex a && isHex b &&
          ((decide (a.toNat = 50) && decide (b.toNat = 53)) ||
            decide (unhex a * 16 + unhex b = 32) ||
            !shouldEscapeHost (unhex a * 16 + unhex b)) &&
          zoneOK rest
      | _ => false
    else if decide (c.toNat < 128) && shouldEscapeHost c.toNat then false
    else zoneOK cs

/-- `validOptionalPort`: empty, or a colon followed by digits only. -/
def validOptionalPort : List Char → Bool
  | [] => true
  | c :: ds => decide (c.toNat = 58) && ds.all isDigit

/-- Split a bracketed host before its first `%25`, when it has one. -/
def splitAtZone : List Char → Option (List Char × List Char)
  | [] => none
  | c :: cs =>
    if c.toNat = 37 ∧ (cs.take 2).map Char.toNat = [50, 53] then some ([], c :: cs)
    else (splitAtZone cs).map (fun r => (c :: r.1, r.2))

/-- `parseHost`. -/
def parseHost (host : List Char) : Bool :=
  match host with
  | [] => true
  | h :: _ =>
    if h.toNat = 91 then
      match afterLast 93 host none with
      | none => false
      | some colonPort =>
        validOptionalPort colonPort &&
          (match splitAtZone (host.take (host.length - colonPort.length - 1)) with
            | some (addr, zone) =>
              hostOK addr && zoneOK zone && hostOK (host.drop (host.length - colonPort.length - 1))
            | none => hostOK host)
    else
      (match afterLast 58 host none with
        | some port => port.all isDigit
        | none => true) && hostOK host

/-- `validUserinfo`, for one character. -/
def validUserinfoChar (c : Char) : Bool :=
  isAlpha c || isDigit c ||
    [45, 46, 95, 58, 126, 33, 36, 38, 39, 40, 41, 42, 43, 44, 59, 61, 37, 64].contains c.toNat

/-- `parseAuthority`: the host after the last `@`, the user information before it. -/
def parseAuthority (authority : List Char) : Bool :=
  match afterLast 64 authority none with
  | none => parseHost authority
  | some host =>
    parseHost host &&
      (authority.take (authority.length - host.length - 1)).all validUserinfoChar &&
      escapesOK (authority.take (authority.length - host.length - 1))

/-- The checks of `parse` on the text before the fragment, control characters
aside: scheme, query cut off, authority after `//`, path. -/
def structureOK (u : List Char) : Bool :=
  match getScheme true u u with
  | none => false
  | some (hasScheme, rest0) =>
    match cutBefore 63 rest0 with
    | [] => true
    | c :: tail =>
      if c.toNat = 47 then
        match tail with
        | d :: tail2 =>
          if d.toNat = 47 ∧ (hasScheme = true ∨ ¬ (tail2.head?.map Char.toNat = some 47)) then
            parseAuthority (cutBefore 47 tail2) && escapesOK (cutFrom 47 tail2)
          else escapesOK (c :: tail)
        | [] => escapesOK (c :: tail)
      else if hasScheme then true
      else !(hasChar 58 (cutBefore 47 (c :: tail))) && escapesOK (c :: tail)

/-- The text is the single character `*`. -/
def isStar : List Char → Bool
  | [c] => c.toNat = 42
  | _ => false

/-- Whether `url.Parse` accepts the text. -/
def parses (raw : List Char) : Bool :=
  (isStar (cutBefore 35 raw) || structureOK (cutBefore 35 raw)) &&
    !hasCTL (cutBefore 35 raw) && escapesOK (cutAfter 35 raw)

end RefURL

namespace RefHTTP

/-- Token character of an HTTP method. -/
def isTokenChar (c : Char) : Bool :=
  RefURL.isAlpha c || RefURL.isDigit c ||
    [33, 35, 36, 37, 38, 39, 42, 43, 45, 46, 94, 95, 96, 124, 126].contains c.toNat

/-- `validMethod`, the empty method standing for `GET`. -/
def validMethod (method : String) : Bool :=
  method.toList.all isTokenChar

/-- Whether `http.NewRequest(method, url, body)` returns a request. -/
def newRequest (method url : String) : Bool :=
  validMethod method && RefURL.parses url.toList

end RefHTTP

/-! ## The payloads of the specification's scenarios -/

/-- Payload of the first scenario: one lead of the company Acme. -/
def acmeReply : String :=
  "\x7b\"new\":[\x7b\"Id\":\"1\",\"Company\":\"Acme\",\"CreatedDate\":\"2024-01-01\",\"Description\":\"d\"\x7d]\x7d"

/-- The object `acmeReply` decodes to. -/
def acmeTop : List (String × JValue) :=
  [("new", .arr [.obj [("Id", .str "1"), ("Company", .str "Acme"),
    ("CreatedDate", .str "2024-01-01"), ("Description", .str "d")]])]

/-- The lead of `acmeReply`. -/
def acmeLead : Lead :=
  { Id := "1", Description := "d", URL := "", Created := "2024-01-01", Company := "Acme" }

/-- Payload of the second scenario: a record without `Id`. -/
def noIdReply : String := "\x7b\"new\":[\x7b\"Company\":\"NoId\"\x7d]\x7d"

/-- The lead of `noIdReply`. -/
def noIdLead : Lead :=
  { Id := "", Description := "", URL := "", Created := "", Company := "NoId" }

/-- Payload of the third scenario. -/
def notJsonReply : String := "not json"

/-- Whether `client.Do` succeeded, so that `send` returns. -/
def Response.delivered : Response → Bool
  | .transportError _ => false
  | _ => true

/-- The call `poll` makes to notify `lead` while the destination is `convId`. -/
def notifyCall (convId : String) (lead : Lead) : Call :=
  .notify lead ⟨"POST", notifyURL convId, true, notifyContent lead⟩

/-- The call `poll` makes to fetch the upstream snapshot. -/
def fetchCall : Call :=
  .fetch ⟨"GET", ECHO_SERVICE, false, ""⟩

/-- An event that cannot set a destination: a tick, a `GET` of the configuration
page, or a form post with an empty `convId`. -/
def Event.leavesUnset : Event → Bool
  | .configure method formConvId => method = "GET" || formConvId = ""
  | .tick _ => true

/-- Invariant of the dedup: no id was notified twice, and while the process runs
every notified id is a key of `LEADMAP`. -/
def Dedup (st : State) : Prop :=
  ∀ id, notifyCount id st.calls ≤ 1 ∧
    (st.status = .running → mapGet st.LEADMAP id = none → notifyCount id st.calls = 0)

/-- Payload with a double quote inside the company name `Ac"me`. -/
def quoteReply : String :=
  "\x7b\"new\":[\x7b\"Id\":\"1\",\"Company\":\"Ac\\\"me\",\"CreatedDate\":\"2024-01-01\",\"Description\":\"d\"\x7d]\x7d"

/-- The lead of `quoteReply`. -/
def quoteLead : Lead :=
  { Id := "1", Description := "d", URL := "", Created := "2024-01-01", Company := "Ac\"me" }

/-- Whether `body` is a JSON object with exactly the members `content` and
`subject`, holding the strings `content` and `subject`. -/
def decodesTo (body content subject : String) : Bool :=
  match RefJSON.unmarshal body with
  | .ok (.obj [("content", .str c), ("subject", .str sj)]) => c = content && sj = subject
  | _ => false

/-- A running process whose destination is `conv42` and whose seen set is empty. -/
def activeState : State := ⟨"conv42", [], [], .running⟩

/-- Payload shaped per the field table whose record holds an unrecognised field
with a number beyond the range of `float64`. -/
def rangeReply : String :=
  "\x7b\"new\":[\x7b\"Id\":\"1\",\"AnnualRevenue\":1e400\x7d]\x7d"

/-- The same payload without the unrecognised field. -/
def plainReply : String := "\x7b\"new\":[\x7b\"Id\":\"1\"\x7d]\x7d"

/-- The lead of `plainReply`. -/
def plainLead : Lead :=
  { Id := "1", Description := "", URL := "", Created := "", Company := "" }

/-- A mapping with an empty `new` array and a number beyond the range of
`float64`. -/
def rangeMapReply : String := "\x7b\"new\":[],\"x\":1e400\x7d"

/-- Payload whose record has a numeric `Id`. -/
def numericIdReply : String := "\x7b\"new\":[\x7b\"Id\":5\x7d]\x7d"

/-- Whether a text is, by the grammar of JSON, an object shaped per the field
table. -/
def isShapedText (s : String) : Bool :=
  match RefJSON.read s with
  | some (.obj top) => shapedPayload top
  | _ => false

/-- Whether a text is, by the grammar of JSON, an object. -/
def isMappingText (s : String) : Bool :=
  match RefJSON.read s with
  | some (.obj _) => true
  | _ => false

/-- A network in which the fetch gets `reply` and every POST gets an empty reply. -/
def calmTick (reply : String) : TickInput :=
  ⟨.body reply, fun _ => .body ""⟩

/-! ## The range test of the reference decoder -/

theorem floatLimit_eq : RefJSON.floatLimit = 2 ^ 1024 - 2 ^ 970 := by
  norm_num [RefJSON.floatLimit]

theorem pow10_eq (n : Nat) : RefJSON.pow10 n = 10 ^ n := by
  induction n with
  | zero => rfl
  | succ n ih => rw [RefJSON.pow10, ih, pow_succ, Nat.mul_comm]

theorem floatLimit_lt_pow10 : RefJSON.floatLimit < 10 ^ 155 * 10 ^ 155 := by
  norm_num [RefJSON.floatLimit]

theorem outOfRange_iff (mant : Nat) (k : Int) :
    RefJSON.outOfRange mant k = true ↔
      mant ≠ 0 ∧ ((0 ≤ k ∧ 2 ^ 1024 - 2 ^ 970 ≤ mant * 10 ^ k.toNat) ∨
        (k < 0 ∧ (2 ^ 1024 - 2 ^ 970) * 10 ^ (-k).toNat ≤ mant)) := by
  rw [← floatLimit_eq]
  unfold RefJSON.outOfRange
  split_ifs with h0 h1 h2 h3
  · simp [h0]
  · have hk : k.toNat = 155 + 155 + (k.toNat - 310) := by omega
    have hm : 1 ≤ mant := Nat.pos_of_ne_zero h0
    have hone : 1 ≤ 10 ^ (k.toNat - 310) := Nat.one_le_pow _ _ (by decide)
    have hbig : RefJSON.floatLimit ≤ mant * 10 ^ k.toNat := by
      rw [hk, pow_add, pow_add]
      calc RefJSON.floatLimit ≤ 10 ^ 155 * 10 ^ 155 := le_of_lt floatLimit_lt_pow10
        _ = 1 * (10 ^ 155 * 10 ^ 155 * 1) := by rw [Nat.one_mul, Nat.mul_one]
        _ ≤ mant * (10 ^ 155 * 10 ^ 155 * 10 ^ (k.toNat - 310)) :=
          Nat.mul_le_mul hm (Nat.mul_le_mul_left _ hone)
    simp only [true_iff]
    exact ⟨h0, Or.inl ⟨by omega, hbig⟩⟩
  · rw [pow10_eq]
    simp only [decide_eq_true_eq]
    constructor
    · intro h
      exact ⟨h0, Or.inl ⟨h2, h⟩⟩
    · rintro ⟨_, ⟨_, h⟩ | ⟨hk, _⟩⟩
      · exact h
      · omega
  · have hpos : 1 ≤ 10 ^ (-k).toNat := Nat.one_le_pow _ _ (by decide)
    have hge : RefJSON.floatLimit ≤ RefJSON.floatLimit * 10 ^ (-k).toNat :=
      Nat.le_mul_of_pos_right _ hpos
    constructor
    · intro h
      cases h
    · rintro ⟨_, ⟨hk, _⟩ | ⟨_, h⟩⟩
      · omega
      · omega
  · rw [pow10_eq]
    simp only [decide_eq_true_eq]
    constructor
    · intro h
      exact ⟨h0, Or.inr ⟨by omega, h⟩⟩
    · rintro ⟨_, ⟨hk, _⟩ | ⟨_, h⟩⟩
      · omega
      · exact h

/-! ## Lemmas on object members -/

theorem memberAt_nil (k : String) : memberAt [] k = none := rfl

theorem memberAt_cons (a k : String) (b : JValue) (m : List (String × JValue)) :
    memberAt ((a, b) :: m) k = if a = k then some b else memberAt m k := by
  unfold memberAt
  by_cases h : a = k <;> simp [List.find?_cons, h]

theorem memberAt_absent (m : List (String × JValue)) (k : String)
    (h : k ∉ m.map Prod.fst) : memberAt m k = none := by
  induction m with
  | nil => rfl
  | cons e rest ih =>
    obtain ⟨a, b⟩ := e
    simp only [List.map_cons, List.mem_cons, not_or] at h
    rw [memberAt_cons, if_neg (fun hh => h.1 hh.symm)]
    exact ih h.2

theorem memberAt_of_mem (m : List (String × JValue)) (k : String) (v : JValue)
    (hk : (m.map Prod.fst).Nodup) (h : (k, v) ∈ m) : memberAt m k = some v := by
  induction m with
  | nil => cases h
  | cons e rest ih =>
    obtain ⟨a, b⟩ := e
    simp only [List.map_cons, List.nodup_cons] at hk
    rw [memberAt_cons]
    rcases List.mem_cons.1 h with h1 | h1
    · cases h1
      simp
    · have hne : a ≠ k := by
        intro hh
        subst hh
        exact hk.1 (List.mem_map_of_mem Prod.fst h1)
      rw [if_neg hne]
      exact ih hk.2 h1

/-! ## parseLeads: when it returns and what -/

theorem isStr_true (v : JValue) (h : isStr v = true) : ∃ s, v = .str s := by
  cases v <;> simp [isStr] at h
  exact ⟨_, rfl⟩

theorem all_cons_true {α : Type} (p : α → Bool) (a : α) (l : List α)
    (h : (a :: l).all p = true) : p a = true ∧ l.all p = true := by
  simpa [List.all_cons, Bool.and_eq_true] using h

theorem all_cons_false {α : Type} (p : α → Bool) (a : α) (l : List α)
    (h : (a :: l).all p = false) : p a = false ∨ (p a = true ∧ l.all p = false) := by
  rw [List.all_cons] at h
  cases hp : p a
  · exact Or.inl rfl
  · rw [hp] at h
    exact Or.inr ⟨rfl, by simpa using h⟩

theorem parseAttrs_typed (attrs : List (String × JValue)) (lead : Lead)
    (hk : (attrs.map Prod.fst).Nodup) (ht : attrs.all attrOK = true) :
    parseAttrs attrs lead = .ret { lead with URL := strAt attrs "url" lead.URL } := by
  induction attrs generalizing lead with
  | nil => rfl
  | cons e rest ih =>
    obtain ⟨ka, kv⟩ := e
    simp only [List.map_cons, List.nodup_cons] at hk
    obtain ⟨hhead, hrest⟩ := all_cons_true _ _ _ ht
    by_cases h : ka = "url"
    · subst h
      obtain ⟨s, rfl⟩ := isStr_true kv (by simpa [attrOK] using hhead)
      simp only [parseAttrs, if_true]
      rw [ih _ hk.2 hrest]
      simp [strAt, memberAt_cons, memberAt_absent rest "url" hk.1]
    · simp only [parseAttrs, if_neg h]
      rw [ih _ hk.2 hrest]
      simp [strAt, memberAt_cons, h]

theorem parseAttrs_returns (attrs : List (String × JValue)) (lead : Lead)
    (ht : attrs.all attrOK = true) : ∃ l, parseAttrs attrs lead = .ret l := by
  induction attrs generalizing lead with
  | nil => exact ⟨lead, rfl⟩
  | cons e rest ih =>
    obtain ⟨ka, kv⟩ := e
    obtain ⟨hhead, hrest⟩ := all_cons_true _ _ _ ht
    by_cases h : ka = "url"
    · subst h
      obtain ⟨s, rfl⟩ := isStr_true kv (by simpa [attrOK] using hhead)
      simp only [parseAttrs, if_true]
      exact ih _ hrest
    · simp only [parseAttrs, if_neg h]
      exact ih _ hrest

theorem parseAttrs_untyped (attrs : List (String × JValue)) (lead : Lead)
    (ht : attrs.all attrOK = false) : parseAttrs attrs lead = .panic := by
  induction attrs generalizing lead with
  | nil => simp at ht
  | cons e rest ih =>
    obtain ⟨ka, kv⟩ := e
    by_cases h : ka = "url"
    · subst h
      rcases all_cons_false _ _ _ ht with hhead | ⟨hhead, hrest⟩
      · cases kv <;> simp [attrOK, isStr] at hhead <;> simp [parseAttrs]
      · obtain ⟨s, rfl⟩ := isStr_true kv (by simpa [attrOK] using hhead)
        simp only [parseAttrs, if_true]
        exact ih _ hrest
    · simp only [parseAttrs, if_neg h]
      rcases all_cons_false _ _ _ ht with hhead | ⟨_, hrest⟩
      · simp [attrOK, h] at hhead
      · exact ih _ hrest

theorem parseField_untyped (k : String) (v : JValue) (lead : Lead)
    (h : fieldOK (k, v) = false) : parseField k v lead = .panic := by
  unfold fieldOK at h
  unfold parseField
  simp only at h
  split_ifs at h ⊢ <;> cases v <;> simp_all [isStr, parseAttrs_untyped]

theorem parseField_returns (k : String) (v : JValue) (lead : Lead)
    (h : fieldOK (k, v) = true) : ∃ l, parseField k v lead = .ret l := by
  unfold fieldOK at h
  unfold parseField
  simp only at h
  split_ifs at h ⊢ <;> cases v <;> simp_all [isStr, parseAttrs_returns]

theorem strAt_single_ne (k kF d : String) (v : JValue) (h : k ≠ kF) :
    strAt [(k, v)] kF d = d := by
  simp [strAt, memberAt_cons, memberAt_nil, h]

theorem strAt_single_str (k d s : String) : strAt [(k, JValue.str s)] k d = s := by
  simp [strAt, memberAt_cons]

theorem urlAt_single_ne (k d : String) (v : JValue) (h : k ≠ "attributes") :
    urlAt [(k, v)] d = d := by
  simp [urlAt, memberAt_cons, memberAt_nil, h]

theorem urlAt_single_obj (d : String) (attrs : List (String × JValue)) :
    urlAt [("attributes", JValue.obj attrs)] d = strAt attrs "url" d := by
  simp [urlAt, memberAt_cons]

theorem parseField_typed (k : String) (v : JValue) (lead : Lead)
    (h : fieldOK (k, v) = true)
    (ha : ∀ attrs, k = "attributes" → v = .obj attrs → (attrs.map Prod.fst).Nodup) :
    parseField k v lead = .ret (leadWith [(k, v)] lead) := by
  unfold fieldOK at h
  unfold parseField leadWith
  simp only at h
  split_ifs at h ⊢ with h1 h2 h3 h4 h5
  · obtain ⟨s, rfl⟩ := isStr_true v h
    subst h1
    simp [strAt_single_str, strAt_single_ne, urlAt_single_ne]
  · obtain ⟨s, rfl⟩ := isStr_true v h
    subst h2
    simp [strAt_single_str, strAt_single_ne, urlAt_single_ne]
  · subst h3
    cases v <;> simp only [Bool.false_eq_true] at h
    rename_i attrs
    simp only []
    rw [parseAttrs_typed attrs lead (ha attrs rfl rfl) h]
    simp [strAt_single_ne, urlAt_single_obj]
  · obtain ⟨s, rfl⟩ := isStr_true v h
    subst h4
    simp [strAt_single_str, strAt_single_ne, urlAt_single_ne]
  · obtain ⟨s, rfl⟩ := isStr_true v h
    subst h5
    simp [strAt_single_str, strAt_single_ne, urlAt_single_ne]
  · simp [strAt_single_ne, urlAt_single_ne, h1, h2, h3, h4, h5]

theorem strAt_cons_absent (k kF d : String) (v : JValue) (rest : List (String × JValue))
    (h : k ∉ rest.map Prod.fst) :
    strAt ((k, v) :: rest) kF d = strAt rest kF (strAt [(k, v)] kF d) := by
  by_cases hk : k = kF
  · subst hk
    simp [strAt, memberAt_cons, memberAt_absent rest k h, memberAt_nil]
  · simp [strAt, memberAt_cons, hk, memberAt_nil]

theorem urlAt_cons_absent (k d : String) (v : JValue) (rest : List (String × JValue))
    (h : k ∉ rest.map Prod.fst) :
    urlAt ((k, v) :: rest) d = urlAt rest (urlAt [(k, v)] d) := by
  by_cases hk : k = "attributes"
  · subst hk
    simp [urlAt, memberAt_cons, memberAt_absent rest "attributes" h, memberAt_nil]
  · simp [urlAt, memberAt_cons, hk, memberAt_nil]

theorem leadWith_nil (lead : Lead) : leadWith [] lead = lead := rfl

theorem leadWith_cons (k : String) (v : JValue) (rest : List (String × JValue)) (lead : Lead)
    (h : k ∉ rest.map Prod.fst) :
    leadWith ((k, v) :: rest) lead = leadWith rest (leadWith [(k, v)] lead) := by
  simp only [leadWith]
  rw [strAt_cons_absent k "Id" _ v rest h, strAt_cons_absent k "Description" _ v rest h,
    strAt_cons_absent k "CreatedDate" _ v rest h, strAt_cons_absent k "Company" _ v rest h,
    urlAt_cons_absent k _ v rest h]

theorem parseFields_typed (lm : List (String × JValue)) (lead : Lead)
    (hk : (lm.map Prod.fst).Nodup) (ht : lm.all fieldOK = true)
    (ha : ∀ attrs, ("attributes", JValue.obj attrs) ∈ lm → (attrs.map Prod.fst).Nodup) :
    parseFields lm lead = .ret (leadWith lm lead) := by
  induction lm generalizing lead with
  | nil => rfl
  | cons e rest ih =>
    obtain ⟨k, v⟩ := e
    simp only [List.map_cons, List.nodup_cons] at hk
    obtain ⟨hhead, hrest⟩ := all_cons_true _ _ _ ht
    have h1 : parseField k v lead = .ret (leadWith [(k, v)] lead) :=
      parseField_typed k v lead hhead (fun attrs hkey hv => ha attrs (by simp [hkey, hv]))
    simp only [parseFields, h1]
    rw [ih _ hk.2 hrest (fun attrs hm => ha attrs (List.mem_cons_of_mem _ hm)),
      leadWith_cons k v rest lead hk.1]

theorem parseFields_returns (lm : List (String × JValue)) (lead : Lead)
    (ht : lm.all fieldOK = true) : ∃ l, parseFields lm lead = .ret l := by
  induction lm generalizing lead with
  | nil => exact ⟨lead, rfl⟩
  | cons e rest ih =>
    obtain ⟨k, v⟩ := e
    obtain ⟨hhead, hrest⟩ := all_cons_true _ _ _ ht
    obtain ⟨l1, h1⟩ := parseField_returns k v lead hhead
    simp only [parseFields, h1]
    exact ih _ hrest

theorem parseFields_untyped (lm : List (String × JValue)) (lead : Lead)
    (ht : lm.all fieldOK = false) : parseFields lm lead = .panic := by
  induction lm generalizing lead with
  | nil => simp at ht
  | cons e rest ih =>
    obtain ⟨k, v⟩ := e
    rcases all_cons_false _ _ _ ht with hhead | ⟨hhead, hrest⟩
    · simp only [parseFields, parseField_untyped k v lead hhead]
    · obtain ⟨l1, h1⟩ := parseField_returns k v lead hhead
      simp only [parseFields, h1]
      exact ih _ hrest

theorem parseNew_returns (vv : List JValue) (leads : List Lead)
    (ht : vv.all recordOK = true) : ∃ l, parseNew vv leads = .ret l := by
  induction vv generalizing leads with
  | nil => exact ⟨leads, rfl⟩
  | cons u rest ih =>
    obtain ⟨hhead, hrest⟩ := all_cons_true _ _ _ ht
    cases u <;> simp only [recordOK, Bool.false_eq_true] at hhead
    rename_i lm
    obtain ⟨l1, h1⟩ := parseFields_returns lm Lead.zero hhead
    simp only [parseNew, h1]
    exact ih _ hrest

theorem parseNew_untyped (vv : List JValue) (leads : List Lead)
    (ht : vv.all recordOK = false) : parseNew vv leads = .panic := by
  induction vv generalizing leads with
  | nil => simp at ht
  | cons u rest ih =>
    rcases all_cons_false _ _ _ ht with hhead | ⟨hhead, hrest⟩
    · cases u <;> simp only [parseNew]
      rename_i lm
      simp only [recordOK] at hhead
      simp only [parseFields_untyped lm Lead.zero hhead]
    · cases u <;> simp only [recordOK, Bool.false_eq_true] at hhead
      rename_i lm
      obtain ⟨l1, h1⟩ := parseFields_returns lm Lead.zero hhead
      simp only [parseNew, h1]
      exact ih _ hrest

theorem parseTop_returns (top : List (String × JValue)) (leads : List Lead)
    (ht : top.all topOK = true) : ∃ l, parseTop top leads = .ret l := by
  induction top generalizing leads with
  | nil => exact ⟨leads, rfl⟩
  | cons e rest ih =>
    obtain ⟨k, v⟩ := e
    obtain ⟨hhead, hrest⟩ := all_cons_true _ _ _ ht
    cases v
    case arr vv =>
      by_cases hk : k = "new"
      · simp only [topOK, hk, if_true] at hhead
        obtain ⟨l1, h1⟩ := parseNew_returns vv leads hhead
        simp only [parseTop, hk, if_true, h1]
        exact ih _ hrest
      · simp only [parseTop, if_neg hk]
        exact ih _ hrest
    all_goals
      simp only [parseTop]
      exact ih _ hrest

theorem parseTop_untyped (top : List (String × JValue)) (leads : List Lead)
    (ht : top.all topOK = false) : parseTop top leads = .panic := by
  induction top generalizing leads with
  | nil => simp at ht
  | cons e rest ih =>
    obtain ⟨k, v⟩ := e
    rcases all_cons_false _ _ _ ht with hhead | ⟨hhead, hrest⟩
    · cases v <;> simp only [topOK, Bool.true_eq_false] at hhead
      rename_i vv
      by_cases hk : k = "new"
      · simp only [hk, if_true] at hhead
        simp only [parseTop, hk, if_true, parseNew_untyped vv leads hhead]
      · simp [hk] at hhead
    · cases v
      case arr vv =>
        by_cases hk : k = "new"
        · simp only [topOK, hk, if_true] at hhead
          obtain ⟨l1, h1⟩ := parseNew_returns vv leads hhead
          simp only [parseTop, hk, if_true, h1]
          exact ih _ hrest
        · simp only [parseTop, if_neg hk]
          exact ih _ hrest
      all_goals
        simp only [parseTop]
        exact ih _ hrest

theorem strOrAbsent_of_mem (m : List (String × JValue)) (k : String) (v : JValue)
    (hk : (m.map Prod.fst).Nodup) (hm : (k, v) ∈ m) (h : strOrAbsent m k = true) :
    isStr v = true := by
  unfold strOrAbsent at h
  rw [memberAt_of_mem m k v hk hm] at h
  exact h

theorem shapedAttributes_typed (attrs : List (String × JValue))
    (h : shapedAttributes (.obj attrs) = true) :
    (attrs.map Prod.fst).Nodup ∧ attrs.all attrOK = true := by
  simp only [shapedAttributes, keysDistinct, Bool.and_eq_true, decide_eq_true_eq] at h
  refine ⟨h.1, ?_⟩
  rw [List.all_eq_true]
  rintro ⟨ka, kv⟩ hm
  unfold attrOK
  split_ifs with h1
  · simp only at h1
    subst h1
    exact strOrAbsent_of_mem attrs "url" kv h.1 hm h.2
  · rfl

theorem shapedRecord_typed (lm : List (String × JValue))
    (h : shapedRecord (.obj lm) = true) :
    (lm.map Prod.fst).Nodup ∧ lm.all fieldOK = true ∧
      ∀ attrs, ("attributes", JValue.obj attrs) ∈ lm → (attrs.map Prod.fst).Nodup := by
  simp only [shapedRecord, keysDistinct, Bool.and_eq_true, decide_eq_true_eq] at h
  obtain ⟨⟨⟨⟨⟨hk, hId⟩, hDesc⟩, hComp⟩, hCreated⟩, hAttr⟩ := h
  have hattr : ∀ v, ("attributes", v) ∈ lm → shapedAttributes v = true := by
    intro v hm
    rw [memberAt_of_mem lm "attributes" v hk hm] at hAttr
    exact hAttr
  refine ⟨hk, ?_, ?_⟩
  · rw [List.all_eq_true]
    rintro ⟨k, v⟩ hm
    unfold fieldOK
    simp only
    split_ifs with h1 h2 h3 h4 h5
    · subst h1
      exact strOrAbsent_of_mem lm _ v hk hm hId
    · subst h2
      exact strOrAbsent_of_mem lm _ v hk hm hDesc
    · subst h3
      have hv := hattr v hm
      cases v <;> simp only [shapedAttributes, Bool.false_eq_true] at hv
      rename_i attrs
      exact (shapedAttributes_typed attrs (by simpa [shapedAttributes] using hv)).2
    · subst h4
      exact strOrAbsent_of_mem lm _ v hk hm hComp
    · subst h5
      exact strOrAbsent_of_mem lm _ v hk hm hCreated
    · rfl
  · intro attrs hm
    exact (shapedAttributes_typed attrs (hattr _ hm)).1

theorem shapedRecord_recordOK (u : JValue) (h : shapedRecord u = true) : recordOK u = true := by
  cases u <;> simp only [shapedRecord, Bool.false_eq_true] at h
  rename_i lm
  exact (shapedRecord_typed lm (by simpa [shapedRecord] using h)).2.1

theorem parseNew_shaped (vv : List JValue) (leads : List Lead)
    (h : vv.all shapedRecord = true) :
    parseNew vv leads = .ret (leads ++ vv.map specLead) := by
  induction vv generalizing leads with
  | nil => simp [parseNew]
  | cons u rest ih =>
    obtain ⟨hhead, hrest⟩ := all_cons_true _ _ _ h
    cases u <;> simp only [shapedRecord, Bool.false_eq_true] at hhead
    rename_i lm
    obtain ⟨hk, ht, ha⟩ := shapedRecord_typed lm (by simpa [shapedRecord] using hhead)
    have h1 : parseFields lm Lead.zero = .ret (specLead (.obj lm)) :=
      parseFields_typed lm Lead.zero hk ht ha
    simp only [parseNew, h1]
    rw [ih _ hrest]
    simp

theorem parseTop_shaped (top : List (String × JValue)) (leads : List Lead)
    (hk : (top.map Prod.fst).Nodup)
    (hs : ∀ es, memberAt top "new" = some (.arr es) → es.all shapedRecord = true) :
    parseTop top leads = .ret (leads ++ specLeads top) := by
  induction top generalizing leads with
  | nil => simp [parseTop, specLeads, memberAt_nil]
  | cons e rest ih =>
    obtain ⟨k, v⟩ := e
    simp only [List.map_cons, List.nodup_cons] at hk
    by_cases hnew : k = "new"
    · subst hnew
      have hnone : memberAt rest "new" = none := memberAt_absent rest "new" hk.1
      have hrest : parseTop rest leads = .ret (leads ++ specLeads rest) :=
        ih leads hk.2 (fun es he => by rw [hnone] at he; cases he)
      have hrest0 : specLeads rest = [] := by simp [specLeads, hnone]
      cases v with
      | arr vv =>
        have hvv : vv.all shapedRecord = true := hs vv (by simp [memberAt_cons])
        simp only [parseTop, if_true, parseNew_shaped vv leads hvv]
        rw [ih _ hk.2 (fun es he => by rw [hnone] at he; cases he), hrest0]
        simp [specLeads, memberAt_cons]
      | _ =>
        simp only [parseTop]
        rw [hrest, hrest0]
        simp [specLeads, memberAt_cons]
    · have hsame : memberAt ((k, v) :: rest) "new" = memberAt rest "new" := by
        rw [memberAt_cons, if_neg hnew]
      have hrest : parseTop rest leads = .ret (leads ++ specLeads rest) :=
        ih leads hk.2 (fun es he => hs es (by rw [hsame]; exact he))
      have hspec : specLeads ((k, v) :: rest) = specLeads rest := by
        simp only [specLeads, hsame]
      cases v <;> simp only [parseTop, if_neg hnew, hrest, hspec]

theorem shaped_payload_parses (um : String → Except String JValue) (reply : String)
    (top : List (String × JValue)) (hdec : um reply = .ok (.obj top))
    (hshape : shapedPayload top = true) :
    parseLeads um reply = .ret (specLeads top) := by
  simp only [shapedPayload, keysDistinct, Bool.and_eq_true, decide_eq_true_eq] at hshape
  simp only [parseLeads, hdec]
  rw [parseTop_shaped top [] hshape.1]
  · simp
  · intro es he
    have h2 := hshape.2
    rw [he] at h2
    exact h2

/-! ## Claims on parseLeads -/

/-- C2, as the code has it: the payload whose record holds the unrecognised
field `AnnualRevenue` with the number `1e400` is, by the grammar of JSON, an
object shaped per the field table, yet `json.Unmarshal` reports a range error on
it and `parseLeads` exits in `log.Fatalln` instead of returning the Lead it
returns without that field. -/
theorem parseLeads_range_number_exits :
    isShapedText rangeReply = true ∧
      parseLeads RefJSON.unmarshal rangeReply =
        .fatal "Error parsing: json: cannot unmarshal number 1e400 into Go value of type float64" ∧
      parseLeads RefJSON.unmarshal plainReply = .ret [plainLead] := by
  decide

/-- C2, amended: on every payload that `json.Unmarshal` decodes without error to
a JSON object shaped per the field table, `parseLeads` returns exactly the Leads
of the table: one per element of the `new` array, in order, each field the
string of the mapped member or the empty string (`specLeads`); no other key
enters the result.  On a payload for which `json.Unmarshal` reports an error
`parseLeads` exits in `log.Fatalln`. -/
theorem parseLeads_shaped (um : String → Except String JValue) (reply : String) :
    (∀ top, um reply = .ok (.obj top) → shapedPayload top = true →
        parseLeads um reply = .ret (specLeads top)) ∧
      (∀ e, um reply = .error e → parseLeads um reply = .fatal ("Error parsing: " ++ e)) := by
  refine ⟨fun top hdec hshape => ?_, fun e he => ?_⟩
  · simp only [shapedPayload, keysDistinct, Bool.and_eq_true, decide_eq_true_eq] at hshape
    simp only [parseLeads, hdec]
    rw [parseTop_shaped top [] hshape.1]
    · simp
    · intro es hes
      have h2 := hshape.2
      rw [hes] at h2
      exact h2
  · simp only [parseLeads, he]

/-- Witness of C2 amended: the Acme payload of the specification decodes to a
shaped object, and `parseLeads` returns its one Lead. -/
theorem parseLeads_shaped_witness :
    shapedPayload acmeTop = true ∧
      parseLeads RefJSON.unmarshal acmeReply = .ret (specLeads acmeTop) :=
  ⟨by decide, (parseLeads_shaped RefJSON.unmarshal acmeReply).1 acmeTop (by rfl) (by decide)⟩

/-- C5: when the payload is not valid JSON, or is valid JSON whose top level is
not a mapping, `parseLeads` fails and hands no records to its caller: a decoding
error ends in `log.Fatalln` with the text `Error parsing: ...`, any other top
level in the panic of the assertion `f.(map[string]interface{})`. -/
theorem parseLeads_fails_unless_mapping (um : String → Except String JValue)
    (reply : String) (h : isMapping (um reply) = false) :
    (parseLeads um reply).returned = false ∧ (parseLeads um reply).records = [] ∧
      (∀ e, um reply = .error e → parseLeads um reply = .fatal ("Error parsing: " ++ e)) ∧
      (∀ v, um reply = .ok v → parseLeads um reply = .panic) := by
  unfold parseLeads
  cases hd : um reply with
  | error e => simp [Outcome.returned, Outcome.records]
  | ok v =>
    rw [hd] at h
    cases v <;> simp [isMapping] at h <;> simp [Outcome.returned, Outcome.records]

/-- Witness of C5: the payload `not json` is no mapping, and `parseLeads` does
not return on it. -/
theorem parseLeads_fails_unless_mapping_witness :
    isMapping (RefJSON.unmarshal notJsonReply) = false ∧
      (parseLeads RefJSON.unmarshal notJsonReply).returned = false ∧
      (parseLeads RefJSON.unmarshal notJsonReply).records = [] :=
  ⟨by decide,
    (parseLeads_fails_unless_mapping RefJSON.unmarshal notJsonReply (by decide)).1,
    (parseLeads_fails_unless_mapping RefJSON.unmarshal notJsonReply (by decide)).2.1⟩

/-- C7, as the code has it: the payload with a numeric `Id` is a JSON mapping,
and `parseLeads` panics on it instead of returning a Lead with an empty `Id`;
the mapping with the number `1e400` makes it exit in `log.Fatalln`. -/
theorem parseLeads_numeric_id_panics :
    isMappingText numericIdReply = true ∧
      parseLeads RefJSON.unmarshal numericIdReply = .panic ∧
      isMappingText rangeMapReply = true ∧
      parseLeads RefJSON.unmarshal rangeMapReply =
        .fatal "Error parsing: json: cannot unmarshal number 1e400 into Go value of type float64" := by
  decide

/-- C7, amended: on a payload that `json.Unmarshal` decodes without error to a
JSON object, `parseLeads` returns a sequence of Leads exactly when every
single-valued type assertion it makes holds (`typedPayload`: every element of an
array under `new` is an object whose `Id`, `Description`, `Company` and
`CreatedDate` are strings and whose `attributes` is an object with a string
`url`, each when present), and on every other such object it panics.  On a
payload for which `json.Unmarshal` reports an error it exits in `log.Fatalln`. -/
theorem parseLeads_returns_iff_typed (um : String → Except String JValue) (reply : String) :
    (∀ top, um reply = .ok (.obj top) →
        ((parseLeads um reply).returned = true ↔ typedPayload top = true) ∧
          (typedPayload top = false → parseLeads um reply = .panic)) ∧
      (∀ e, um reply = .error e → parseLeads um reply = .fatal ("Error parsing: " ++ e)) := by
  refine ⟨fun top hdec => ?_, fun e he => ?_⟩
  · simp only [parseLeads, hdec, typedPayload]
    cases ht : top.all topOK
    · rw [parseTop_untyped top [] ht]
      simp [Outcome.returned]
    · obtain ⟨l, hl⟩ := parseTop_returns top [] ht
      rw [hl]
      simp [Outcome.returned]
  · simp only [parseLeads, he]

/-- Witness of C7 amended: every assertion holds on the Acme payload, and
`parseLeads` returns on it. -/
theorem parseLeads_returns_iff_typed_witness :
    typedPayload acmeTop = true ∧ (parseLeads RefJSON.unmarshal acmeReply).returned = true :=
  ⟨by decide,
    ((parseLeads_returns_iff_typed RefJSON.unmarshal acmeReply).1 acmeTop (by rfl)).1.2
      (by decide)⟩

/-! ## The seen set and the poll loop -/

theorem mapGet_mapSet_self (m : List (String × Lead)) (k : String) (v : Lead) :
    mapGet (mapSet m k v) k = some v := by
  simp [mapGet, mapSet, List.find?_cons]

theorem find_filter_ne (m : List (String × Lead)) (k k2 : String) (h : k2 ≠ k) :
    (m.filter (fun e => e.1 ≠ k)).find? (fun e => e.1 = k2) = m.find? (fun e => e.1 = k2) := by
  induction m with
  | nil => rfl
  | cons e rest ih =>
    obtain ⟨a, b⟩ := e
    by_cases he : a = k
    · have he2 : ¬ a = k2 := fun hh => h (hh.symm.trans he)
      rw [List.filter_cons_of_neg (by simpa using he), List.find?_cons_of_neg _ (by simpa using he2)]
      exact ih
    · rw [List.filter_cons_of_pos (by simpa using he)]
      by_cases he2 : a = k2
      · rw [List.find?_cons_of_pos _ (by simpa using he2),
          List.find?_cons_of_pos _ (by simpa using he2)]
      · rw [List.find?_cons_of_neg _ (by simpa using he2),
          List.find?_cons_of_neg _ (by simpa using he2)]
        exact ih

theorem mapGet_mapSet_ne (m : List (String × Lead)) (k k2 : String) (v : Lead)
    (h : k2 ≠ k) : mapGet (mapSet m k v) k2 = mapGet m k2 := by
  have hkk : ¬ k = k2 := fun hh => h hh.symm
  unfold mapGet mapSet
  rw [List.find?_cons_of_neg _ (by simpa using hkk), find_filter_ne m k k2 h]

theorem notifyCount_append_one (id : String) (calls : List Call) (c : Call) :
    notifyCount id (calls ++ [c]) = notifyCount id calls + (if c.isNotifyFor id then 1 else 0) := by
  unfold notifyCount
  rw [List.filter_append, List.length_append]
  by_cases h : c.isNotifyFor id = true
  · simp [List.filter_cons, h]
  · simp [List.filter_cons, h]

theorem send_ret_accepted (nr : String → String → Bool) (method url : String) (useAuth : Bool)
    (content : String) (resp : Response) (x : String)
    (h : (send nr method url useAuth content resp).2 = .ret x) : nr method url = true := by
  cases hn : nr method url
  · simp [send, hn] at h
  · rfl

theorem notifyURL_rejected (convId : String) :
    RefHTTP.newRequest "POST" (notifyURL convId) = false := by
  obtain ⟨d⟩ := convId
  rfl

theorem pollLead_present (nr : String → String → Bool) (post : Response) (lead l : Lead)
    (st : State) (h : mapGet st.LEADMAP lead.Id = some l) : pollLead nr post lead st = st := by
  simp [pollLead, h]

theorem pollLead_rejected (nr : String → String → Bool) (post : Response) (lead : Lead)
    (st : State) (h : mapGet st.LEADMAP lead.Id = none)
    (hn : nr "POST" (notifyURL st.convId) = false) :
    pollLead nr post lead st = { st with status := .panicked } := by
  simp [pollLead, h, send, hn]

theorem pollLead_absent_delivered (nr : String → String → Bool) (post : Response) (lead : Lead)
    (st : State) (h : mapGet st.LEADMAP lead.Id = none)
    (hn : nr "POST" (notifyURL st.convId) = true) (hd : post.delivered = true) :
    pollLead nr post lead st =
      { st with calls := st.calls ++ [notifyCall st.convId lead],
                LEADMAP := mapSet st.LEADMAP lead.Id lead } := by
  cases post <;> simp [Response.delivered] at hd <;>
    simp [pollLead, h, send, hn, notifyCall]

theorem pollLead_absent_failed (nr : String → String → Bool) (err : String) (lead : Lead)
    (st : State) (h : mapGet st.LEADMAP lead.Id = none)
    (hn : nr "POST" (notifyURL st.convId) = true) :
    pollLead nr (.transportError err) lead st =
      { st with calls := st.calls ++ [notifyCall st.convId lead],
                status := .exited ("Cannot send" ++ err) } := by
  simp [pollLead, h, send, hn, notifyCall]

theorem pollLead_cases (nr : String → String → Bool) (post : Response) (lead : Lead)
    (st : State) :
    ((∃ l, mapGet st.LEADMAP lead.Id = some l) ∧ pollLead nr post lead st = st) ∨
    (mapGet st.LEADMAP lead.Id = none ∧ nr "POST" (notifyURL st.convId) = false ∧
      pollLead nr post lead st = { st with status := .panicked }) ∨
    (mapGet st.LEADMAP lead.Id = none ∧ nr "POST" (notifyURL st.convId) = true ∧
      post.delivered = true ∧
      pollLead nr post lead st =
        { st with calls := st.calls ++ [notifyCall st.convId lead],
                  LEADMAP := mapSet st.LEADMAP lead.Id lead }) ∨
    (mapGet st.LEADMAP lead.Id = none ∧ nr "POST" (notifyURL st.convId) = true ∧
      post.delivered = false ∧
      ∃ err, pollLead nr post lead st =
        { st with calls := st.calls ++ [notifyCall st.convId lead],
                  status := .exited ("Cannot send" ++ err) }) := by
  cases h : mapGet st.LEADMAP lead.Id with
  | some l => exact Or.inl ⟨⟨l, rfl⟩, pollLead_present nr post lead l st h⟩
  | none =>
    cases hn : nr "POST" (notifyURL st.convId)
    · exact Or.inr (Or.inl ⟨rfl, rfl, pollLead_rejected nr post lead st h hn⟩)
    · cases hp : post.delivered
      · refine Or.inr (Or.inr (Or.inr ⟨rfl, rfl, rfl, ?_⟩))
        cases post <;> simp only [Response.delivered, Bool.true_eq_false] at hp
        rename_i err
        exact ⟨err, pollLead_absent_failed nr err lead st h hn⟩
      · exact Or.inr (Or.inr (Or.inl
          ⟨rfl, rfl, rfl, pollLead_absent_delivered nr post lead st h hn hp⟩))

theorem isNotifyFor_notifyCall (convId id : String) (lead : Lead) :
    (notifyCall convId lead).isNotifyFor id = decide (lead.Id = id) := rfl

theorem pollLead_convId (nr : String → String → Bool) (post : Response) (lead : Lead)
    (st : State) : (pollLead nr post lead st).convId = st.convId := by
  rcases pollLead_cases nr post lead st with
    ⟨_, h⟩ | ⟨_, _, h⟩ | ⟨_, _, _, h⟩ | ⟨_, _, _, err, h⟩ <;> rw [h]

theorem pollLead_status (nr : String → String → Bool) (post : Response) (lead : Lead)
    (st : State) (hn : nr "POST" (notifyURL st.convId) = true) (hd : post.delivered = true) :
    (pollLead nr post lead st).status = st.status := by
  rcases pollLead_cases nr post lead st with
    ⟨_, h⟩ | ⟨_, hf, _⟩ | ⟨_, _, _, h⟩ | ⟨_, _, hf, _⟩
  · rw [h]
  · rw [hn] at hf
    cases hf
  · rw [h]
  · rw [hd] at hf
    cases hf

theorem pollLead_keeps (nr : String → String → Bool) (post : Response) (lead : Lead)
    (st : State) (id : String) (l : Lead) (hl : mapGet st.LEADMAP id = some l) :
    mapGet (pollLead nr post lead st).LEADMAP id = some l := by
  rcases pollLead_cases nr post lead st with
    ⟨_, h⟩ | ⟨_, _, h⟩ | ⟨hn, _, _, h⟩ | ⟨_, _, _, err, h⟩
  · rw [h]
    exact hl
  · rw [h]
    exact hl
  · rw [h]
    have hne : id ≠ lead.Id := by
      intro hh
      rw [hh, hn] at hl
      cases hl
    simp only []
    rw [mapGet_mapSet_ne _ _ _ _ hne]
    exact hl
  · rw [h]
    exact hl

theorem pollLead_count_other (nr : String → String → Bool) (post : Response) (lead : Lead)
    (st : State) (id : String) (hne : lead.Id ≠ id) :
    notifyCount id (pollLead nr post lead st).calls = notifyCount id st.calls := by
  rcases pollLead_cases nr post lead st with
    ⟨_, h⟩ | ⟨_, _, h⟩ | ⟨_, _, _, h⟩ | ⟨_, _, _, err, h⟩ <;> rw [h] <;>
    simp [notifyCount_append_one, isNotifyFor_notifyCall, hne]

theorem pollLead_count_seen (nr : String → String → Bool) (post : Response) (lead : Lead)
    (st : State) (id : String) (l : Lead) (hl : mapGet st.LEADMAP id = some l) :
    notifyCount id (pollLead nr post lead st).calls = notifyCount id st.calls := by
  by_cases hid : lead.Id = id
  · subst hid
    rw [pollLead_present nr post lead l st hl]
  · exact pollLead_count_other nr post lead st id hid

theorem pollLead_quiet (nr : String → String → Bool) (post : Response) (lead : Lead)
    (st : State) (hn : nr "POST" (notifyURL st.convId) = false) :
    (pollLead nr post lead st).LEADMAP = st.LEADMAP ∧
      (pollLead nr post lead st).calls = st.calls := by
  rcases pollLead_cases nr post lead st with
    ⟨_, h⟩ | ⟨_, _, h⟩ | ⟨_, hf, _⟩ | ⟨_, hf, _⟩
  · rw [h]
    exact ⟨rfl, rfl⟩
  · rw [h]
    exact ⟨rfl, rfl⟩
  · rw [hn] at hf
    cases hf
  · rw [hn] at hf
    cases hf

theorem pollLeads_convId (nr : String → String → Bool) (posts : Nat → Response) (i : Nat)
    (leads : List Lead) (st : State) : (pollLeads nr posts i leads st).convId = st.convId := by
  induction leads generalizing i st with
  | nil => rfl
  | cons lead rest ih =>
    simp only [pollLeads]
    split
    · rw [ih, pollLead_convId]
    · exact pollLead_convId _ _ _ _

theorem pollLeads_keeps (nr : String → String → Bool) (posts : Nat → Response) (i : Nat)
    (leads : List Lead) (st : State) (id : String) (l : Lead)
    (hl : mapGet st.LEADMAP id = some l) :
    mapGet (pollLeads nr posts i leads st).LEADMAP id = some l := by
  induction leads generalizing i st with
  | nil => exact hl
  | cons lead rest ih =>
    simp only [pollLeads]
    split
    · exact ih _ _ (pollLead_keeps _ _ _ _ _ _ hl)
    · exact pollLead_keeps _ _ _ _ _ _ hl

theorem pollLeads_count_seen (nr : String → String → Bool) (posts : Nat → Response) (i : Nat)
    (leads : List Lead) (st : State) (id : String) (l : Lead)
    (hl : mapGet st.LEADMAP id = some l) :
    notifyCount id (pollLeads nr posts i leads st).calls = notifyCount id st.calls := by
  induction leads generalizing i st with
  | nil => rfl
  | cons lead rest ih =>
    simp only [pollLeads]
    split
    · rw [ih _ _ (pollLead_keeps _ _ _ _ _ _ hl), pollLead_count_seen _ _ _ _ _ _ hl]
    · exact pollLead_count_seen _ _ _ _ _ _ hl

theorem pollLeads_quiet (nr : String → String → Bool) (posts : Nat → Response) (i : Nat)
    (leads : List Lead) (st : State) (hn : nr "POST" (notifyURL st.convId) = false) :
    (pollLeads nr posts i leads st).LEADMAP = st.LEADMAP ∧
      (pollLeads nr posts i leads st).calls = st.calls := by
  induction leads generalizing i st with
  | nil => exact ⟨rfl, rfl⟩
  | cons lead rest ih =>
    have h1 := pollLead_quiet nr (posts i) lead st hn
    simp only [pollLeads]
    split
    · have h2 := ih (i + 1) (pollLead nr (posts i) lead st)
        (by rw [pollLead_convId]; exact hn)
      exact ⟨h2.1.trans h1.1, h2.2.trans h1.2⟩
    · exact h1

theorem pollLeads_all_seen (nr : String → String → Bool) (posts : Nat → Response) (i : Nat)
    (leads : List Lead) (st : State)
    (h : ∀ l ∈ leads, ∃ x, mapGet st.LEADMAP l.Id = some x) :
    pollLeads nr posts i leads st = st := by
  induction leads generalizing i with
  | nil => rfl
  | cons lead rest ih =>
    obtain ⟨x, hx⟩ := h lead (List.mem_cons_self _ _)
    simp only [pollLeads, pollLead_present nr (posts i) lead x st hx]
    split
    · exact ih _ (fun l hl => h l (List.mem_cons_of_mem _ hl))
    · rfl

theorem pollLeads_rejected (nr : String → String → Bool) (posts : Nat → Response) (i : Nat)
    (leads : List Lead) (st : State) (hn : nr "POST" (notifyURL st.convId) = false)
    (hrun : st.status = .running)
    (h : ∃ l ∈ leads, mapGet st.LEADMAP l.Id = none) :
    pollLeads nr posts i leads st = { st with status := .panicked } := by
  induction leads generalizing i with
  | nil =>
    obtain ⟨l, hl, _⟩ := h
    cases hl
  | cons lead rest ih =>
    cases hg : mapGet st.LEADMAP lead.Id with
    | none =>
      simp only [pollLeads, pollLead_rejected nr (posts i) lead st hg hn]
    | some x =>
      simp only [pollLeads, pollLead_present nr (posts i) lead x st hg, hrun]
      apply ih
      obtain ⟨l, hl, hnone⟩ := h
      rcases List.mem_cons.1 hl with h1 | h1
      · subst h1
        rw [hg] at hnone
        cases hnone
      · exact ⟨l, h1, hnone⟩

theorem pollLeads_status (nr : String → String → Bool) (posts : Nat → Response) (i : Nat)
    (leads : List Lead) (st : State) (hn : nr "POST" (notifyURL st.convId) = true)
    (hd : ∀ j, (posts j).delivered = true) (hrun : st.status = .running) :
    (pollLeads nr posts i leads st).status = .running := by
  induction leads generalizing i st with
  | nil => exact hrun
  | cons lead rest ih =>
    have h1 : (pollLead nr (posts i) lead st).status = .running := by
      rw [pollLead_status _ _ _ _ hn (hd i)]
      exact hrun
    simp only [pollLeads, h1]
    exact ih _ _ (by rw [pollLead_convId]; exact hn) h1

theorem pollLeads_new (nr : String → String → Bool) (posts : Nat → Response) (i : Nat)
    (leads : List Lead) (st : State) (id : String)
    (hn : nr "POST" (notifyURL st.convId) = true)
    (hd : ∀ j, (posts j).delivered = true) (hrun : st.status = .running)
    (hnew : mapGet st.LEADMAP id = none) (hmem : id ∈ leads.map Lead.Id) :
    notifyCount id (pollLeads nr posts i leads st).calls = notifyCount id st.calls + 1 ∧
      ∃ l, l ∈ leads ∧ l.Id = id ∧
        mapGet (pollLeads nr posts i leads st).LEADMAP id = some l := by
  induction leads generalizing i st with
  | nil => simp at hmem
  | cons lead rest ih =>
    have h1 : (pollLead nr (posts i) lead st).status = .running := by
      rw [pollLead_status _ _ _ _ hn (hd i)]
      exact hrun
    have hn1 : nr "POST" (notifyURL (pollLead nr (posts i) lead st).convId) = true := by
      rw [pollLead_convId]
      exact hn
    simp only [pollLeads, h1]
    by_cases hid : lead.Id = id
    · subst hid
      have hstep := pollLead_absent_delivered nr (posts i) lead st hnew hn (hd i)
      have hget : mapGet (pollLead nr (posts i) lead st).LEADMAP lead.Id = some lead := by
        rw [hstep]
        exact mapGet_mapSet_self _ _ _
      refine ⟨?_, lead, List.mem_cons_self _ _, rfl, pollLeads_keeps _ _ _ _ _ _ _ hget⟩
      rw [pollLeads_count_seen _ _ _ _ _ _ _ hget, hstep]
      simp [notifyCount_append_one, isNotifyFor_notifyCall]
    · have hmem2 : id ∈ rest.map Lead.Id := by
        simp only [List.map_cons, List.mem_cons] at hmem
        rcases hmem with hh | hh
        · exact absurd hh.symm hid
        · exact hh
      have hnew2 : mapGet (pollLead nr (posts i) lead st).LEADMAP id = none := by
        rcases pollLead_cases nr (posts i) lead st with
          ⟨_, h⟩ | ⟨_, _, h⟩ | ⟨_, _, _, h⟩ | ⟨_, _, _, err, h⟩
        · rw [h]
          exact hnew
        · rw [h]
          exact hnew
        · rw [h]
          simp only []
          rw [mapGet_mapSet_ne _ _ _ _ (fun hh => hid hh.symm)]
          exact hnew
        · rw [h]
          exact hnew
      obtain ⟨hc, l, hl, hlid, hget⟩ :=
        ih (i + 1) (pollLead nr (posts i) lead st) hn1 h1 hnew2 hmem2
      refine ⟨?_, l, List.mem_cons_of_mem _ hl, hlid, hget⟩
      rw [hc, pollLead_count_other _ _ _ _ _ hid]

theorem pollTick_idle (um : String → Except String JValue) (nr : String → String → Bool)
    (inp : TickInput) (st : State) (h : st.convId = "") : pollTick um nr inp st = st := by
  simp [pollTick, h]

theorem pollTick_active (um : String → Except String JValue) (nr : String → String → Bool)
    (inp : TickInput) (st : State) (h : st.convId ≠ "") :
    pollTick um nr inp st =
      match (send nr "GET" ECHO_SERVICE false "" inp.fetch).2 with
      | .ret reply =>
        match parseLeads um reply with
        | .ret leads =>
          pollLeads nr inp.posts 0 leads
            { st with calls := st.calls ++
                ((send nr "GET" ECHO_SERVICE false "" inp.fetch).1.map Call.fetch).toList }
        | .fatal msg =>
          { st with calls := st.calls ++
              ((send nr "GET" ECHO_SERVICE false "" inp.fetch).1.map Call.fetch).toList,
                    status := .exited msg }
        | .panic =>
          { st with calls := st.calls ++
              ((send nr "GET" ECHO_SERVICE false "" inp.fetch).1.map Call.fetch).toList,
                    status := .panicked }
      | .fatal msg =>
        { st with calls := st.calls ++
            ((send nr "GET" ECHO_SERVICE false "" inp.fetch).1.map Call.fetch).toList,
                  status := .exited msg }
      | .panic =>
        { st with calls := st.calls ++
            ((send nr "GET" ECHO_SERVICE false "" inp.fetch).1.map Call.fetch).toList,
                  status := .panicked } := by
  simp only [pollTick, if_neg h]

theorem send_get_issued (nr : String → String → Bool) (resp : Response) (reply : String)
    (hf : (send nr "GET" ECHO_SERVICE false "" resp).2 = .ret reply) :
    ((send nr "GET" ECHO_SERVICE false "" resp).1.map Call.fetch).toList = [fetchCall] := by
  have hn := send_ret_accepted nr "GET" ECHO_SERVICE false "" resp reply hf
  simp [send, hn, fetchCall]

theorem pollTick_parsed (um : String → Except String JValue) (nr : String → String → Bool)
    (inp : TickInput) (st : State) (reply : String) (leads : List Lead) (h : st.convId ≠ "")
    (hf : (send nr "GET" ECHO_SERVICE false "" inp.fetch).2 = .ret reply)
    (hp : parseLeads um reply = .ret leads) :
    pollTick um nr inp st =
      pollLeads nr inp.posts 0 leads { st with calls := st.calls ++ [fetchCall] } := by
  rw [pollTick_active um nr inp st h, send_get_issued nr inp.fetch reply hf, hf]
  simp only [hp]

theorem notifyCount_fetch (id : String) (calls : List Call) (o : Option Request) :
    notifyCount id (calls ++ (o.map Call.fetch).toList) = notifyCount id calls := by
  cases o with
  | none => simp
  | some req =>
    simp only [Option.map_some', Option.toList_some]
    rw [notifyCount_append_one]
    simp [Call.isNotifyFor]

theorem notifyCount_fetchCall (id : String) (calls : List Call) :
    notifyCount id (calls ++ [fetchCall]) = notifyCount id calls := by
  rw [notifyCount_append_one]
  simp [fetchCall, Call.isNotifyFor]

theorem dedup_fetch (st : State) (o : Option Request) (h : Dedup st) :
    Dedup { st with calls := st.calls ++ (o.map Call.fetch).toList } := by
  intro id
  simp only [notifyCount_fetch]
  exact h id

theorem dedup_dead (st : State) (s : Status) (h : Dedup st) (hs : s ≠ .running) :
    Dedup { st with status := s } := by
  intro id
  exact ⟨(h id).1, fun hrun => absurd hrun hs⟩

theorem pollLead_dedup (nr : String → String → Bool) (post : Response) (lead : Lead)
    (st : State) (hrun : st.status = .running) (h : Dedup st) :
    Dedup (pollLead nr post lead st) := by
  rcases pollLead_cases nr post lead st with
    ⟨_, hst⟩ | ⟨_, _, hst⟩ | ⟨hn, _, _, hst⟩ | ⟨hn, _, _, err, hst⟩
  · rw [hst]
    exact h
  · rw [hst]
    exact dedup_dead st .panicked h (by simp)
  · rw [hst]
    intro id
    simp only [notifyCount_append_one, isNotifyFor_notifyCall]
    by_cases hid : lead.Id = id
    · subst hid
      have h0 := (h lead.Id).2 hrun hn
      refine ⟨by simp [h0], fun _ hg => ?_⟩
      rw [mapGet_mapSet_self] at hg
      cases hg
    · refine ⟨by simpa [hid] using (h id).1, fun _ hg => ?_⟩
      rw [mapGet_mapSet_ne _ _ _ _ (fun hh => hid hh.symm)] at hg
      simpa [hid] using (h id).2 hrun hg
  · rw [hst]
    intro id
    simp only [notifyCount_append_one, isNotifyFor_notifyCall]
    refine ⟨?_, fun hh => by cases hh⟩
    by_cases hid : lead.Id = id
    · subst hid
      have h0 := (h lead.Id).2 hrun hn
      simp [h0]
    · simpa [hid] using (h id).1

theorem pollLeads_dedup (nr : String → String → Bool) (posts : Nat → Response) (i : Nat)
    (leads : List Lead) (st : State) (hrun : st.status = .running) (h : Dedup st) :
    Dedup (pollLeads nr posts i leads st) := by
  induction leads generalizing i st with
  | nil => exact h
  | cons lead rest ih =>
    have h1 := pollLead_dedup nr (posts i) lead st hrun h
    cases hs : (pollLead nr (posts i) lead st).status with
    | running =>
      simp only [pollLeads, hs]
      exact ih _ _ hs h1
    | exited msg =>
      simp only [pollLeads, hs]
      exact h1
    | panicked =>
      simp only [pollLeads, hs]
      exact h1

theorem pollTick_dedup (um : String → Except String JValue) (nr : String → String → Bool)
    (inp : TickInput) (st : State) (hrun : st.status = .running) (h : Dedup st) :
    Dedup (pollTick um nr inp st) := by
  by_cases hc : st.convId = ""
  · rw [pollTick_idle um nr inp st hc]
    exact h
  · rw [pollTick_active um nr inp st hc]
    have hf := dedup_fetch st (send nr "GET" ECHO_SERVICE false "" inp.fetch).1 h
    cases (send nr "GET" ECHO_SERVICE false "" inp.fetch).2 with
    | ret reply =>
      dsimp only
      cases parseLeads um reply with
      | ret leads => exact pollLeads_dedup _ _ _ _ _ hrun hf
      | fatal msg => exact dedup_dead _ (.exited msg) hf (by simp)
      | panic => exact dedup_dead _ .panicked hf (by simp)
    | fatal msg => exact dedup_dead _ (.exited msg) hf (by simp)
    | panic => exact dedup_dead _ .panicked hf (by simp)

theorem step_dedup (um : String → Except String JValue) (nr : String → String → Bool)
    (st : State) (ev : Event) (h : Dedup st) : Dedup (step um nr st ev) := by
  unfold step
  split
  · rename_i hs
    cases ev with
    | configure method formConvId =>
      simp only [configureHandler]
      split_ifs
      · exact h
      · exact fun id => h id
    | tick inp => exact pollTick_dedup um nr inp st hs h
  · exact h

theorem run_dedup (um : String → Except String JValue) (nr : String → String → Bool)
    (st : State) (evs : List Event) (h : Dedup st) : Dedup (run um nr st evs) := by
  induction evs generalizing st with
  | nil => exact h
  | cons ev rest ih => exact ih _ (step_dedup um nr st ev h)

theorem run_dead (um : String → Except String JValue) (nr : String → String → Bool)
    (st : State) (evs : List Event) (h : st.status ≠ .running) : run um nr st evs = st := by
  induction evs with
  | nil => rfl
  | cons ev rest ih =>
    have hstep : step um nr st ev = st := by
      unfold step
      cases hs : st.status with
      | running => exact absurd hs h
      | exited msg => rfl
      | panicked => rfl
    simp only [run, List.foldl_cons, hstep]
    exact ih

theorem pollTick_keeps (um : String → Except String JValue) (nr : String → String → Bool)
    (inp : TickInput) (st : State) (id : String) (l : Lead)
    (hl : mapGet st.LEADMAP id = some l) :
    mapGet (pollTick um nr inp st).LEADMAP id = some l := by
  by_cases hc : st.convId = ""
  · rw [pollTick_idle um nr inp st hc]
    exact hl
  · rw [pollTick_active um nr inp st hc]
    cases (send nr "GET" ECHO_SERVICE false "" inp.fetch).2 with
    | ret reply =>
      dsimp only
      cases parseLeads um reply with
      | ret leads => exact pollLeads_keeps _ _ _ _ _ _ _ hl
      | fatal msg => exact hl
      | panic => exact hl
    | fatal msg => exact hl
    | panic => exact hl

theorem step_keeps (um : String → Except String JValue) (nr : String → String → Bool)
    (st : State) (ev : Event) (id : String) (l : Lead) (hl : mapGet st.LEADMAP id = some l) :
    mapGet (step um nr st ev).LEADMAP id = some l := by
  unfold step
  cases st.status with
  | running =>
    cases ev with
    | configure method formConvId =>
      simp only [configureHandler]
      split_ifs
      · exact hl
      · exact hl
    | tick inp => exact pollTick_keeps um nr inp st id l hl
  | exited msg => exact hl
  | panicked => exact hl

theorem run_keeps (um : String → Except String JValue) (nr : String → String → Bool)
    (st : State) (evs : List Event) (id : String) (l : Lead)
    (hl : mapGet st.LEADMAP id = some l) :
    mapGet (run um nr st evs).LEADMAP id = some l := by
  induction evs generalizing st with
  | nil => exact hl
  | cons ev rest ih => exact ih _ (step_keeps um nr st ev id l hl)

theorem run_idle (um : String → Except String JValue) (nr : String → String → Bool)
    (st : State) (evs : List Event) (h : st.convId = "")
    (hev : evs.all Event.leavesUnset = true) : run um nr st evs = st := by
  induction evs with
  | nil => rfl
  | cons ev rest ih =>
    obtain ⟨hhead, hrest⟩ := all_cons_true _ _ _ hev
    have hstep : step um nr st ev = st := by
      unfold step
      cases hs : st.status with
      | running =>
        cases ev with
        | configure method formConvId =>
          simp only [configureHandler]
          split_ifs with hm
          · rfl
          · have hv : formConvId = "" := by simpa [Event.leavesUnset, hm] using hhead
            rw [hv, ← h]
        | tick inp => exact pollTick_idle um nr inp st h
      | exited msg => rfl
      | panicked => rfl
    simp only [run, List.foldl_cons, hstep]
    exact ih hrest

theorem pollTick_quiet (um : String → Except String JValue) (nr : String → String → Bool)
    (inp : TickInput) (st : State) (hrej : ∀ convId, nr "POST" (notifyURL convId) = false) :
    (pollTick um nr inp st).LEADMAP = st.LEADMAP ∧
      ∀ id, notifyCount id (pollTick um nr inp st).calls = notifyCount id st.calls := by
  by_cases hc : st.convId = ""
  · rw [pollTick_idle um nr inp st hc]
    exact ⟨rfl, fun _ => rfl⟩
  · rw [pollTick_active um nr inp st hc]
    cases (send nr "GET" ECHO_SERVICE false "" inp.fetch).2 with
    | ret reply =>
      dsimp only
      cases parseLeads um reply with
      | ret leads =>
        have hq := pollLeads_quiet nr inp.posts 0 leads
          { st with calls := st.calls ++
              ((send nr "GET" ECHO_SERVICE false "" inp.fetch).1.map Call.fetch).toList }
          (hrej st.convId)
        refine ⟨hq.1, fun id => ?_⟩
        rw [hq.2]
        exact notifyCount_fetch id st.calls _
      | fatal msg => exact ⟨rfl, fun id => notifyCount_fetch id st.calls _⟩
      | panic => exact ⟨rfl, fun id => notifyCount_fetch id st.calls _⟩
    | fatal msg => exact ⟨rfl, fun id => notifyCount_fetch id st.calls _⟩
    | panic => exact ⟨rfl, fun id => notifyCount_fetch id st.calls _⟩

theorem step_quiet (um : String → Except String JValue) (nr : String → String → Bool)
    (st : State) (ev : Event) (hrej : ∀ convId, nr "POST" (notifyURL convId) = false) :
    (step um nr st ev).LEADMAP = st.LEADMAP ∧
      ∀ id, notifyCount id (step um nr st ev).calls = notifyCount id st.calls := by
  unfold step
  cases st.status with
  | running =>
    cases ev with
    | configure method formConvId =>
      simp only [configureHandler]
      split_ifs
      · exact ⟨rfl, fun _ => rfl⟩
      · exact ⟨rfl, fun _ => rfl⟩
    | tick inp => exact pollTick_quiet um nr inp st hrej
  | exited msg => exact ⟨rfl, fun _ => rfl⟩
  | panicked => exact ⟨rfl, fun _ => rfl⟩

theorem run_quiet (um : String → Except String JValue) (nr : String → String → Bool)
    (st : State) (evs : List Event) (hrej : ∀ convId, nr "POST" (notifyURL convId) = false) :
    (run um nr st evs).LEADMAP = st.LEADMAP ∧
      ∀ id, notifyCount id (run um nr st evs).calls = notifyCount id st.calls := by
  induction evs generalizing st with
  | nil => exact ⟨rfl, fun _ => rfl⟩
  | cons ev rest ih =>
    have h1 := step_quiet um nr st ev hrej
    have h2 := ih (step um nr st ev)
    exact ⟨h2.1.trans h1.1, fun id => (h2.2 id).trans (h1.2 id)⟩

/-! ## Claims on the poll loop -/

/-- C1, as the code has it: in the scenario of the specification (destination
`conv42`, the Acme payload, a network that answers every request) the first tick
issues the fetch and no notify: `http.NewRequest` rejects the POST URL built from
`CONVS_URL`, whose port is `<PORT>`, and `send` panics at `req.Header.Add`. -/
theorem acme_scenario_issues_no_notify :
    (run RefJSON.unmarshal RefHTTP.newRequest State.init
        [.configure "POST" "conv42", .tick (calmTick acmeReply)]).calls = [fetchCall] ∧
      notifyCount "1" (run RefJSON.unmarshal RefHTTP.newRequest State.init
        [.configure "POST" "conv42", .tick (calmTick acmeReply)]).calls = 0 ∧
      (run RefJSON.unmarshal RefHTTP.newRequest State.init
        [.configure "POST" "conv42", .tick (calmTick acmeReply)]).status = .panicked := by
  decide

/-- C1, amended: over every run of the process from its start (any requests to
`/configure`, any ticks, any network behaviour, any decoder, any verdicts of
`http.NewRequest`) and for every lead id, the notify dispatch is issued at most
once for that id, also when the id is in every snapshot or several times in one.
With the committed `CONVS_URL` no notify is ever issued; in the scenario of the
specification the first tick ends the process, so a second tick with the same
payload changes nothing. -/
theorem notify_at_most_once :
    (∀ (um : String → Except String JValue) (nr : String → String → Bool)
        (evs : List Event) (id : String),
        notifyCount id (run um nr State.init evs).calls ≤ 1) ∧
      (∀ (um : String → Except String JValue) (evs : List Event) (id : String),
        notifyCount id (run um RefHTTP.newRequest State.init evs).calls = 0) ∧
      run RefJSON.unmarshal RefHTTP.newRequest State.init
          [.configure "POST" "conv42", .tick (calmTick acmeReply),
            .tick (calmTick acmeReply)] =
        run RefJSON.unmarshal RefHTTP.newRequest State.init
          [.configure "POST" "conv42", .tick (calmTick acmeReply)] := by
  refine ⟨fun um nr evs id => ?_, fun um evs id => ?_, by decide⟩
  · have h0 : Dedup State.init :=
      fun id => ⟨by simp [State.init, notifyCount], fun _ _ => rfl⟩
    exact (run_dedup um nr State.init evs h0 id).1
  · rw [(run_quiet um RefHTTP.newRequest State.init evs notifyURL_rejected).2 id]
    rfl

/-- C3: on a tick with `convId` empty, `poll` makes no fetch and no notify and
leaves `LEADMAP` as it is, whatever the upstream would reply; and over any
stretch of events that leave `convId` empty no call is made at all. -/
theorem idle_tick_does_nothing (um : String → Except String JValue)
    (nr : String → String → Bool) (st : State) (h : st.convId = "") :
    (∀ inp, pollTick um nr inp st = st) ∧
      (∀ evs, evs.all Event.leavesUnset = true →
        (run um nr st evs).calls = st.calls ∧ (run um nr st evs).LEADMAP = st.LEADMAP ∧
          (run um nr st evs).convId = "") := by
  refine ⟨fun inp => pollTick_idle um nr inp st h, fun evs hev => ?_⟩
  rw [run_idle um nr st evs h hev]
  exact ⟨rfl, rfl, h⟩

/-- Witness of C3: the process starts with `convId` empty, and a tick then
changes nothing. -/
theorem idle_tick_does_nothing_witness :
    State.init.convId = "" ∧
      pollTick RefJSON.unmarshal RefHTTP.newRequest (calmTick acmeReply) State.init =
        State.init :=
  ⟨rfl, (idle_tick_does_nothing RefJSON.unmarshal RefHTTP.newRequest State.init rfl).1
    (calmTick acmeReply)⟩

/-- C4: in every state the process reaches from its start, whatever the
requests to `/configure`, the ticks, the payloads and the network, the empty
string is not a key of `LEADMAP` and no notify was issued for a Lead with an
empty `Id`.  The payload whose record has no `Id`, met with destination
`conv42`, produces the fetch, zero notify calls and zero entries of `LEADMAP`. -/
theorem empty_id_never_notified :
    (∀ (um : String → Except String JValue) (evs : List Event),
        mapGet (run um RefHTTP.newRequest State.init evs).LEADMAP "" = none ∧
          notifyCount "" (run um RefHTTP.newRequest State.init evs).calls = 0) ∧
      (run RefJSON.unmarshal RefHTTP.newRequest State.init
          [.configure "POST" "conv42", .tick (calmTick noIdReply)]).calls = [fetchCall] ∧
      (run RefJSON.unmarshal RefHTTP.newRequest State.init
          [.configure "POST" "conv42", .tick (calmTick noIdReply)]).LEADMAP = [] := by
  refine ⟨fun um evs => ?_, by decide, by decide⟩
  have hq := run_quiet um RefHTTP.newRequest State.init evs notifyURL_rejected
  rw [hq.1, hq.2 ""]
  exact ⟨rfl, rfl⟩

/-- C6, as the code has it: an Active tick that fetches `not json` ends the
process in `log.Fatalln`, and a later tick makes no call. -/
theorem invalid_json_stops_the_process :
    (pollTick RefJSON.unmarshal RefHTTP.newRequest (calmTick notJsonReply) activeState).status =
        .exited "Error parsing: invalid JSON text" ∧
      (run RefJSON.unmarshal RefHTTP.newRequest State.init
        [.configure "POST" "conv42", .tick (calmTick notJsonReply),
          .tick (calmTick acmeReply)]).calls = [fetchCall] := by
  decide

/-- C6, amended: on an Active tick whose fetched payload is not valid JSON, the
tick makes the fetch and no notify, leaves `LEADMAP` unchanged, and the process
exits through `log.Fatalln` with the text `Error parsing: ...`: no later event
changes anything. -/
theorem invalid_json_tick_exits (um : String → Except String JValue)
    (nr : String → String → Bool) (inp : TickInput)
    (st : State) (reply e : String) (hc : st.convId ≠ "")
    (hf : (send nr "GET" ECHO_SERVICE false "" inp.fetch).2 = .ret reply)
    (hd : um reply = .error e) :
    pollTick um nr inp st =
        { st with calls := st.calls ++ [fetchCall],
                  status := .exited ("Error parsing: " ++ e) } ∧
      ∀ evs, run um nr (pollTick um nr inp st) evs = pollTick um nr inp st := by
  have hp : parseLeads um reply = .fatal ("Error parsing: " ++ e) := by
    simp [parseLeads, hd]
  have ht : pollTick um nr inp st =
      { st with calls := st.calls ++ [fetchCall],
                status := .exited ("Error parsing: " ++ e) } := by
    rw [pollTick_active um nr inp st hc, send_get_issued nr inp.fetch reply hf, hf]
    simp only [hp]
  refine ⟨ht, fun evs => ?_⟩
  apply run_dead
  rw [ht]
  simp

/-- Witness of C6 amended: the payload `not json`, met by a process with
destination `conv42`. -/
theorem invalid_json_tick_exits_witness :
    activeState.convId ≠ "" ∧
      pollTick RefJSON.unmarshal RefHTTP.newRequest (calmTick notJsonReply) activeState =
        { activeState with calls := activeState.calls ++ [fetchCall],
                           status := .exited ("Error parsing: " ++ "invalid JSON text") } :=
  ⟨by decide,
    (invalid_json_tick_exits RefJSON.unmarshal RefHTTP.newRequest (calmTick notJsonReply)
      activeState notJsonReply "invalid JSON text" (by decide) (by decide) (by rfl)).1⟩

/-- C8, as the code has it: on an Active tick with the Acme payload and a
network that answers every request, the new id `1` gets no notify and is not a
key of `LEADMAP` after the tick: `http.NewRequest` rejects the POST URL and
`send` panics before `client.Do` and before the map update. -/
theorem new_id_is_not_recorded :
    (pollTick RefJSON.unmarshal RefHTTP.newRequest (calmTick acmeReply) activeState).calls =
        [fetchCall] ∧
      mapGet (pollTick RefJSON.unmarshal RefHTTP.newRequest (calmTick acmeReply)
        activeState).LEADMAP "1" = none ∧
      (pollTick RefJSON.unmarshal RefHTTP.newRequest (calmTick acmeReply) activeState).status =
        .panicked := by
  decide

/-- C8, amended: on an Active tick of a running process whose fetch returns a
payload that decodes to an object shaped per the field table:
an id that is a key of `LEADMAP` gets no notify and keeps its Lead;
when `http.NewRequest` accepts the POST URL and every dispatch returns from
`client.Do` (with any reply), every id of the snapshot that was not a key gets
exactly one notify and is a key after the tick, and the process runs on;
when `http.NewRequest` rejects the POST URL and the snapshot holds an id that is
not a key, the tick issues the fetch only, records nothing and ends in the panic
of `send`;
when `http.NewRequest` accepts the POST URL and `client.Do` fails for the first
Lead, whose id is not a key, the tick issues that POST, records nothing and ends
in `log.Fatal`;
and with the committed `CONVS_URL` the POST URL is rejected for every
destination. -/
theorem active_tick_notifies_new_ids (um : String → Except String JValue)
    (nr : String → String → Bool) (inp : TickInput)
    (st : State) (reply : String) (top : List (String × JValue))
    (hrun : st.status = .running) (hc : st.convId ≠ "")
    (hf : (send nr "GET" ECHO_SERVICE false "" inp.fetch).2 = .ret reply)
    (hdec : um reply = .ok (.obj top)) (hshape : shapedPayload top = true) :
    (∀ id l, mapGet st.LEADMAP id = some l →
        notifyCount id (pollTick um nr inp st).calls = notifyCount id st.calls ∧
          mapGet (pollTick um nr inp st).LEADMAP id = some l) ∧
      (nr "POST" (notifyURL st.convId) = true → (∀ i, (inp.posts i).delivered = true) →
        (pollTick um nr inp st).status = .running ∧
          ∀ id, mapGet st.LEADMAP id = none → id ∈ (specLeads top).map Lead.Id →
            notifyCount id (pollTick um nr inp st).calls = notifyCount id st.calls + 1 ∧
              ∃ l, l ∈ specLeads top ∧ l.Id = id ∧
                mapGet (pollTick um nr inp st).LEADMAP id = some l) ∧
      (nr "POST" (notifyURL st.convId) = false →
        (∃ l, l ∈ specLeads top ∧ mapGet st.LEADMAP l.Id = none) →
        pollTick um nr inp st =
          { st with calls := st.calls ++ [fetchCall], status := .panicked }) ∧
      (nr "POST" (notifyURL st.convId) = true →
        ∀ lead rest err, specLeads top = lead :: rest → mapGet st.LEADMAP lead.Id = none →
          inp.posts 0 = .transportError err →
          pollTick um nr inp st =
            { st with calls := st.calls ++ [fetchCall, notifyCall st.convId lead],
                      status := .exited ("Cannot send" ++ err) }) ∧
      (∀ convId, RefHTTP.newRequest "POST" (notifyURL convId) = false) := by
  have hp : parseLeads um reply = .ret (specLeads top) :=
    shaped_payload_parses um reply top hdec hshape
  rw [pollTick_parsed um nr inp st reply (specLeads top) hc hf hp]
  refine ⟨fun id l hl => ⟨?_, ?_⟩, fun hn hd => ⟨?_, fun id hnew hmem => ?_⟩,
    fun hn hex => ?_, fun hn lead rest err hspec hnone hpost => ?_, notifyURL_rejected⟩
  · have h := pollLeads_count_seen nr inp.posts 0 (specLeads top)
      { st with calls := st.calls ++ [fetchCall] } id l hl
    simpa [notifyCount_fetchCall] using h
  · exact pollLeads_keeps nr inp.posts 0 (specLeads top)
      { st with calls := st.calls ++ [fetchCall] } id l hl
  · exact pollLeads_status nr inp.posts 0 (specLeads top)
      { st with calls := st.calls ++ [fetchCall] } hn hd hrun
  · have h := pollLeads_new nr inp.posts 0 (specLeads top)
      { st with calls := st.calls ++ [fetchCall] } id hn hd hrun hnew hmem
    simpa [notifyCount_fetchCall] using h
  · obtain ⟨l, hl, hnone⟩ := hex
    exact pollLeads_rejected nr inp.posts 0 (specLeads top)
      { st with calls := st.calls ++ [fetchCall] } hn hrun ⟨l, hl, hnone⟩
  · rw [hspec]
    have hstep := pollLead_absent_failed nr err lead
      { st with calls := st.calls ++ [fetchCall] } hnone hn
    simp only [pollLeads, hpost, hstep]
    simp

/-- Witness of C8 amended: the Acme payload, met by a running process with
destination `conv42`, an empty seen set and a network that answers every
request: the tick issues the fetch only and ends in the panic of `send`. -/
theorem active_tick_notifies_new_ids_witness :
    pollTick RefJSON.unmarshal RefHTTP.newRequest (calmTick acmeReply) activeState =
      { activeState with calls := activeState.calls ++ [fetchCall], status := .panicked } :=
  (active_tick_notifies_new_ids RefJSON.unmarshal RefHTTP.newRequest (calmTick acmeReply)
    activeState acmeReply acmeTop rfl (by decide) (by decide) (by rfl) (by decide)).2.2.1
    (by decide) ⟨acmeLead, by decide, by decide⟩

/-- C9: an entry of `LEADMAP` is never rewritten.  When `id` is a key holding the
Lead `l`: the loop body for any Lead carrying that id, whatever its other fields,
changes nothing; and `l` is still what `id` holds after the rest of a snapshot,
after a tick of `poll`, and after any run. -/
theorem seen_entry_is_kept (st : State) (id : String) (l : Lead)
    (h : mapGet st.LEADMAP id = some l) :
    (∀ nr post lead, lead.Id = id → pollLead nr post lead st = st) ∧
      (∀ nr posts i leads, mapGet (pollLeads nr posts i leads st).LEADMAP id = some l) ∧
      (∀ um nr inp, mapGet (pollTick um nr inp st).LEADMAP id = some l) ∧
      (∀ um nr evs, mapGet (run um nr st evs).LEADMAP id = some l) := by
  refine ⟨fun nr post lead hid => ?_,
    fun nr posts i leads => pollLeads_keeps nr posts i leads st id l h,
    fun um nr inp => pollTick_keeps um nr inp st id l h,
    fun um nr evs => run_keeps um nr st evs id l h⟩
  subst hid
  exact pollLead_present nr post lead l st h

/-- Witness of C9: the id `1` is seen, and a tick that fetches it again leaves
its Lead in place. -/
theorem seen_entry_is_kept_witness :
    mapGet [("1", acmeLead)] "1" = some acmeLead ∧
      mapGet (pollTick RefJSON.unmarshal RefHTTP.newRequest (calmTick acmeReply)
        ⟨"conv42", [("1", acmeLead)], [], .running⟩).LEADMAP "1" = some acmeLead :=
  ⟨by decide,
    (seen_entry_is_kept ⟨"conv42", [("1", acmeLead)], [], .running⟩ "1" acmeLead
      (by decide)).2.2.1 RefJSON.unmarshal RefHTTP.newRequest (calmTick acmeReply)⟩

set_option maxRecDepth 8000 in
/-- C10, at the failing input: for the Lead whose company is `Ac"me` the body
`poll` builds and hands to `send` carries the quote unescaped and is not a
well-formed JSON text, while the body for the Acme Lead is the JSON object with
`content` the rendered Lead and `subject` the fixed line; whenever `send` gets
as far as `client.Do`, that body is what the tick posts. -/
theorem notify_body_not_escaped :
    notifyCall "conv42" quoteLead =
        .notify quoteLead ⟨"POST", CONVS_URL ++ "/" ++ "conv42" ++ "/messages", true,
          "\x7b\"content\":\"<b>Company</b>: Ac\"me<br><b>CreatedAt</b>: 2024-01-01<br><br><b>Description</b>: d\", \"subject\": \"New Lead!!!\"\x7d"⟩ ∧
      isMapping (RefJSON.unmarshal (notifyContent quoteLead)) = false ∧
      decodesTo (notifyContent quoteLead) quoteLead.String "New Lead!!!" = false ∧
      decodesTo (notifyContent acmeLead) acmeLead.String "New Lead!!!" = true ∧
      (∀ nr : String → String → Bool, nr "GET" ECHO_SERVICE = true →
        nr "POST" (notifyURL "conv42") = true →
        (pollTick RefJSON.unmarshal nr (calmTick quoteReply) activeState).calls =
          [fetchCall, notifyCall "conv42" quoteLead]) := by
  refine ⟨by decide, by decide, by decide, by decide, fun nr hg hpost => ?_⟩
  have hf : (send nr "GET" ECHO_SERVICE false "" (calmTick quoteReply).fetch).2 =
      .ret quoteReply := by
    simp [send, hg, calmTick]
  have hp : parseLeads RefJSON.unmarshal quoteReply = .ret [quoteLead] := by decide
  rw [pollTick_parsed RefJSON.unmarshal nr (calmTick quoteReply) activeState quoteReply
    [quoteLead] (by decide) hf hp]
  have hstep := pollLead_absent_delivered nr ((calmTick quoteReply).posts 0) quoteLead
    { activeState with calls := activeState.calls ++ [fetchCall] } (by decide) hpost rfl
  simp only [pollLeads, hstep]
  simp [activeState]

end SalesforceCircuit
